import Mathlib

/-!
# Platform directories (package `dirs`)

A shallow embedding of the three `Dirs` implementations of the package
(`linuxDirs`, `darwinDirs`, `windowsDirs`) together with the two platform
primitives they call: the environment lookup `os.Getenv` and the home-directory
lookup `os.UserHomeDir`, and the standard-library function `filepath.Join`.

Conventions.

* A Go `string` is a Lean `String`.  The standard-library path functions only
  inspect ASCII bytes, so working on characters agrees with Go's byte-level
  processing on every valid UTF-8 string; the one place where the byte index
  matters (the drive-letter test of `volumeNameLen`) is spelled out there.
* A Go result `(string, error)` is a pair `String × Option GoError`, the second
  component being `none` for a `nil` error.
* The process environment and the outcome of `os.UserHomeDir` are the two
  fields of `Platform`; every getter is a function of a `Platform`.
-/

namespace Dirs

/-- The value carried by a non-nil Go `error`: its message. -/
abbrev GoError := String

/-- The result of a getter, Go's `(string, error)`. -/
abbrev Result := String × Option GoError

/-- The ambient state a getter reads.  `LookupEnv` is the process environment
(`none` for a variable that is not set); `UserHomeDir` is the outcome of the
home-directory primitive `os.UserHomeDir()`, which returns the empty path
together with every non-nil error. -/
structure Platform where
  LookupEnv : String → Option String
  UserHomeDir : Except GoError String

/-- Go's `os.Getenv`: the value of the variable, empty when it is not set. -/
def Platform.Getenv (p : Platform) (key : String) : String :=
  (p.LookupEnv key).getD ""

/-- Go's `os.Setenv`: the same platform with `key` set to `value`. -/
def Platform.Setenv (p : Platform) (key value : String) : Platform :=
  { p with LookupEnv := fun k => if k = key then some value else p.LookupEnv k }

/-- Go's `os.Unsetenv`: the same platform with `key` removed. -/
def Platform.Unsetenv (p : Platform) (key : String) : Platform :=
  { p with LookupEnv := fun k => if k = key then none else p.LookupEnv k }

/-- The pair `os.UserHomeDir()` returns. -/
def Platform.osUserHomeDir (p : Platform) : Result :=
  match p.UserHomeDir with
  | .ok h => (h, none)
  | .error e => ("", some e)

/-! ## `path/filepath`

The standard-library functions the getters call, after the sources of Go 1.21
and 1.22 (`path/filepath/path.go`, `path_unix.go`, `path_windows.go`); the
package pins no Go release.  `Clean` is one function for all systems; `join`,
`volumeNameLen` and `postClean` are per system.  The main loop of `Clean` walks
the path element by element, which is how this embedding runs it: one
`cleanStep` per element of `splitElements`.

Go releases differ in how `volumeNameLen` reads device paths (`\\.\`, `\\?\`,
`\??\`) and UNC prefixes with `.`, `..` or `?` in the place of the host or of
the share.  Every general statement below applies it to paths with a drive
letter, to paths without a volume, or to UNC paths `\\host\share` whose host
and share are real elements and whose host is not `?`.
-/

/-- The target operating system (`runtime.GOOS`) of the three variants. -/
inductive GOOS where
  | linux
  | darwin
  | windows
deriving DecidableEq, Repr

/-- Go's `filepath.Separator`. -/
def Separator : GOOS → Char
  | .windows => '\\'
  | _ => '/'

/-- Go's `os.IsPathSeparator`. -/
def IsPathSeparator : GOOS → Char → Bool
  | .windows, c => c == '\\' || c == '/'
  | _, c => c == '/'

/-- The path elements of `path`: the maximal runs of characters between path
separators (an empty run for each leading, trailing or doubled separator). -/
def splitElements (os : GOOS) : List Char → List (List Char)
  | [] => [[]]
  | c :: cs =>
    if IsPathSeparator os c then [] :: splitElements os cs
    else
      match splitElements os cs with
      | [] => [[c]]
      | e :: es => (c :: e) :: es

/-- Go's `lazybuf`: the output of `Clean`.  `out` is the text written so far
(`buf[:w]`, or `path[:w]` while no buffer has been allocated) and `alloc`
records whether the buffer has been allocated (`buf != nil`), which happens at
the first appended byte that differs from the input at the same position.
`stale` is the rest of the allocated buffer, `buf[w:]`: zero bytes, and the
bytes that backtracking has left behind. -/
structure lazybuf where
  path : List Char
  out : List Char
  alloc : Bool
  stale : List Char
deriving DecidableEq, Repr

/-- Go's `lazybuf.append`: advance over an input byte that is the same, write
into the buffer otherwise, allocating it (`make([]byte, len(path))` and a copy
of `path[:w]`) at the first such byte. -/
def lazybuf.append (b : lazybuf) (c : Char) : lazybuf :=
  if !b.alloc && b.path.get? b.out.length == some c then
    { b with out := b.out ++ [c] }
  else if !b.alloc then
    { b with
      out := b.out ++ [c]
      alloc := true
      stale := List.replicate (b.path.length - b.out.length - 1) (Char.ofNat 0) }
  else
    { b with out := b.out ++ [c], stale := b.stale.drop 1 }

/-- Appending the bytes of one path element, one `append` per byte. -/
def lazybuf.appendAll (b : lazybuf) (cs : List Char) : lazybuf :=
  cs.foldl lazybuf.append b

/-- The backtracking of `Clean` at a `..` element, on the reversed output:
`out.w--`, then `for out.w > dotdot && !IsPathSeparator(out.index(out.w)) { out.w-- }`.
The head of the list is `out.index(out.w)` after the decrement, its tail is the
text that remains, and `n` is `out.w - dotdot`. -/
def backtrackRev (os : GOOS) : Nat → List Char → List Char
  | _, [] => []
  | 0, _ :: r => r
  | n + 1, c :: r => if IsPathSeparator os c then r else backtrackRev os n r

/-- The `..` case of `Clean` when `out.w > dotdot`; the bytes that `out.w`
moves back over stay in an allocated buffer. -/
def lazybuf.backtrack (os : GOOS) (b : lazybuf) (dotdot : Nat) : lazybuf :=
  let out := (backtrackRev os (b.out.length - 1 - dotdot) b.out.reverse).reverse
  { b with
    out := out
    stale := if b.alloc then b.out.drop out.length ++ b.stale else b.stale }

/-- One iteration of the main loop of `Clean` for the path element `e`, on the
state `(out, dotdot)`. -/
def cleanStep (os : GOOS) (rooted : Bool) (st : lazybuf × Nat) (e : List Char) :
    lazybuf × Nat :=
  let (out, dotdot) := st
  if e = [] then st
  else if e = ['.'] then st
  else if e = ['.', '.'] then
    if out.out.length > dotdot then (out.backtrack os dotdot, dotdot)
    else if !rooted then
      let out := if out.out.length > 0 then out.append (Separator os) else out
      let out := (out.append '.').append '.'
      (out, out.out.length)
    else st
  else
    let out :=
      if (rooted && out.out.length != 1) || (!rooted && out.out.length != 0) then
        out.append (Separator os)
      else out
    (out.appendAll e, dotdot)

/-- Go's `filepath.FromSlash`. -/
def FromSlash (os : GOOS) (s : List Char) : List Char :=
  match os with
  | .windows => s.map (fun c => if c = '/' then '\\' else c)
  | _ => s

/-- Go's `pathHasPrefixFold` (Windows): `s` begins with `prefix`, ignoring case
and treating all path separators as equivalent, and the character of `s` after
the prefix, if any, is a path separator. -/
def pathHasPrefixFold : List Char → List Char → Bool
  | [], [] => true
  | c :: _, [] => IsPathSeparator .windows c
  | [], _ :: _ => false
  | c :: s, p :: ps =>
    (if IsPathSeparator .windows p then IsPathSeparator .windows c
     else p.toUpper == c.toUpper) && pathHasPrefixFold s ps

/-- The loop of Go's `uncLen`: the index of the second path separator of `cs`,
counted from `i`, where `count` separators have been seen; the end of the path
when there is none. -/
def uncLenFrom : List Char → Nat → Nat → Nat
  | [], _, i => i
  | c :: cs, count, i =>
    if IsPathSeparator .windows c then
      if count + 1 = 2 then i else uncLenFrom cs (count + 1) (i + 1)
    else uncLenFrom cs count (i + 1)

/-- Go's `uncLen` (Windows): the length of the volume prefix of a UNC path whose
host starts at `prefixLen`. -/
def uncLen (path : List Char) (prefixLen : Nat) : Nat :=
  if prefixLen < path.length then uncLenFrom (path.drop prefixLen) 0 prefixLen
  else path.length

/-- The index in `cs` of its first path separator, counted from `i`, if any
(Go's `cutPath`). -/
def cutPathFrom : List Char → Nat → Option Nat
  | [], _ => none
  | c :: cs, i => if IsPathSeparator .windows c then some i else cutPathFrom cs (i + 1)

/-- Go's `volumeNameLen`, as in Go 1.21 and 1.22: the length of the leading
volume name, `0` on every system but Windows.  The drive-letter test
`path[1] == ':'` reads the second byte, so it holds when the first character is
a single byte and the second is a colon. -/
def volumeNameLen (os : GOOS) (path : List Char) : Nat :=
  match os with
  | .windows =>
    match path with
    | [] => 0
    | c0 :: rest =>
      if (match rest with | c1 :: _ => c0.val < 128 && c1 == ':' | [] => false) then 2
      else if !IsPathSeparator .windows c0 then 0
      else if pathHasPrefixFold path ['\\', '\\', '.', '\\', 'U', 'N', 'C'] then uncLen path 8
      else if pathHasPrefixFold path ['\\', '\\', '.']
          || pathHasPrefixFold path ['\\', '\\', '?']
          || pathHasPrefixFold path ['\\', '?', '?'] then
        if path.length = 3 then 3
        else
          match cutPathFrom (path.drop 4) 4 with
          | none => path.length
          | some i => i
      else if (match rest with | c1 :: _ => IsPathSeparator .windows c1 | [] => false) then
        uncLen path 2
      else 0
  | _ => 0

/-- Whether a colon occurs in `cs` before any path separator: the loop of Go's
`postClean`, which runs over the whole buffer. -/
def colonInFirstElement : List Char → Bool
  | [] => false
  | c :: cs =>
    if IsPathSeparator .windows c then false
    else if c == ':' then true
    else colonInFirstElement cs

/-- Go's `postClean`: on Windows, keep a cleaned relative path from turning
into a drive-relative or Root Local Device path; nothing elsewhere.  The search
for a colon ranges over the buffer `out.buf`, the bytes after `out.w`
included. -/
def postClean (os : GOOS) (volLen : Nat) (b : lazybuf) : lazybuf :=
  match os with
  | .windows =>
    if volLen != 0 || !b.alloc then b
    else if colonInFirstElement (b.out ++ b.stale) then
      { b with out := '.' :: '\\' :: b.out }
    else
      match b.out with
      | c0 :: '?' :: '?' :: _ =>
        if IsPathSeparator .windows c0 then { b with out := '\\' :: '.' :: b.out } else b
      | _ => b
  | _ => b

/-- Go's `filepath.Clean`, on the characters of the path. -/
def cleanChars (os : GOOS) (originalPath : List Char) : List Char :=
  let volLen := volumeNameLen os originalPath
  let path := originalPath.drop volLen
  match path with
  | [] =>
    match originalPath with
    | c0 :: c1 :: _ =>
      if volLen > 1 && IsPathSeparator os c0 && IsPathSeparator os c1 then
        FromSlash os originalPath
      else originalPath ++ ['.']
    | _ => originalPath ++ ['.']
  | c :: cs =>
    let rooted := IsPathSeparator os c
    let out : lazybuf := { path := path, out := [], alloc := false, stale := [] }
    let st : lazybuf × Nat := if rooted then (out.append (Separator os), 1) else (out, 0)
    let elems := splitElements os (if rooted then cs else path)
    let out := (elems.foldl (cleanStep os rooted) st).1
    let out := if out.out.length = 0 then out.append '.' else out
    let out := postClean os volLen out
    FromSlash os (originalPath.take volLen ++ out.out)

/-- Go's `filepath.Clean`. -/
def Clean (os : GOOS) (path : String) : String :=
  String.mk (cleanChars os path.data)

/-- The builder loop of Go's `join` for Windows: `b` is the text built so far
and `lastChar` its last byte (`0` before anything is written). -/
def joinWindowsLoop : List (List Char) → List Char → Char → List Char
  | [], b, _ => b
  | e :: es, b, lastChar =>
    if b.length = 0 then
      match e.getLast? with
      | some l => joinWindowsLoop es (b ++ e) l
      | none => joinWindowsLoop es b lastChar
    else if IsPathSeparator .windows lastChar then
      let e := e.dropWhile (IsPathSeparator .windows)
      let b :=
        if b.length = 1 && (match e with
            | '?' :: '?' :: [] => true
            | '?' :: '?' :: c :: _ => IsPathSeparator .windows c
            | _ => false) then b ++ ['.', '\\']
        else b
      match e.getLast? with
      | some l => joinWindowsLoop es (b ++ e) l
      | none => joinWindowsLoop es b lastChar
    else if lastChar = ':' then
      match e.getLast? with
      | some l => joinWindowsLoop es (b ++ e) l
      | none => joinWindowsLoop es b lastChar
    else
      match e.getLast? with
      | some l => joinWindowsLoop es (b ++ ['\\'] ++ e) l
      | none => joinWindowsLoop es (b ++ ['\\']) '\\'

/-- Go's `join` for Unix systems (`path_unix.go`): the elements from the first
non-empty one on, joined by slashes and cleaned; empty when all are empty. -/
def joinUnix (os : GOOS) : List (List Char) → List Char
  | [] => []
  | e :: es =>
    if e ≠ [] then cleanChars os (List.intercalate ['/'] (e :: es))
    else joinUnix os es

/-- Go's `filepath.Join` on characters. -/
def joinChars (os : GOOS) (elem : List (List Char)) : List Char :=
  match os with
  | .windows =>
    match joinWindowsLoop elem [] (Char.ofNat 0) with
    | [] => []
    | b => cleanChars .windows b
  | _ => joinUnix os elem

/-- Go's `filepath.Join`. -/
def Join (os : GOOS) (elem : List String) : String :=
  String.mk (joinChars os (elem.map String.data))

/-- Go's `filepath.IsAbs`: on Unix the path begins with a slash; on Windows it
has a volume name that is a UNC prefix or is followed by a path separator. -/
def IsAbs (os : GOOS) (path : String) : Bool :=
  match os with
  | .windows =>
    let l := volumeNameLen .windows path.data
    if l = 0 then false
    else
      match path.data with
      | c0 :: c1 :: _ =>
        if IsPathSeparator .windows c0 && IsPathSeparator .windows c1 then true
        else
          match path.data.drop l with
          | [] => false
          | c :: _ => IsPathSeparator .windows c
      | _ => false
  | _ =>
    match path.data with
    | c :: _ => c == '/'
    | [] => false

/-! ## `strings` -/

/-- Go's `strings.ToLower`, on ASCII text. -/
def ToLower (s : String) : String :=
  String.mk (s.data.map Char.toLower)

/-- Go's `strings.HasPrefix`. -/
def HasPrefix (s pre : String) : Bool :=
  pre.data.isPrefixOf s.data

/-- Go's `strings.HasSuffix`. -/
def HasSuffix (s suf : String) : Bool :=
  suf.data.isSuffixOf s.data

/-! ## `dirs_linux.go` -/

namespace linuxDirs

/-- The method `(*linuxDirs).HomeDir`. -/
def HomeDir (p : Platform) : Result :=
  p.osUserHomeDir

/-- The method `(*linuxDirs).CacheDir`. -/
def CacheDir (p : Platform) : Result :=
  let dir := p.Getenv "XDG_CACHE_HOME"
  if dir ≠ "" then (dir, none)
  else
    match HomeDir p with
    | (_, some err) => ("", some err)
    | (home, none) => (Join .linux [home, ".cache"], none)

/-- The method `(*linuxDirs).ConfigDir`. -/
def ConfigDir (p : Platform) : Result :=
  let dir := p.Getenv "XDG_CONFIG_HOME"
  if dir ≠ "" then (dir, none)
  else
    match HomeDir p with
    | (_, some err) => ("", some err)
    | (home, none) => (Join .linux [home, ".config"], none)

/-- The method `(*linuxDirs).DataDir`. -/
def DataDir (p : Platform) : Result :=
  let dir := p.Getenv "XDG_DATA_HOME"
  if dir ≠ "" then (dir, none)
  else
    match HomeDir p with
    | (_, some err) => ("", some err)
    | (home, none) => (Join .linux [home, ".local", "share"], none)

/-- The method `(*linuxDirs).DataLocalDir`. -/
def DataLocalDir (p : Platform) : Result :=
  DataDir p

/-- The method `(*linuxDirs).ExecutableDir`. -/
def ExecutableDir (p : Platform) : Result :=
  let dir := p.Getenv "XDG_BIN_HOME"
  if dir ≠ "" then (dir, none)
  else
    match HomeDir p with
    | (_, some err) => ("", some err)
    | (home, none) => (Join .linux [home, ".local", "bin"], none)

/-- The method `(*linuxDirs).PreferenceDir`. -/
def PreferenceDir (p : Platform) : Result :=
  ConfigDir p

/-- The method `(*linuxDirs).RuntimeDir`. -/
def RuntimeDir (p : Platform) : Result :=
  let dir := p.Getenv "XDG_RUNTIME_DIR"
  (dir, none)

/-- The method `(*linuxDirs).StateDir`. -/
def StateDir (p : Platform) : Result :=
  let dir := p.Getenv "XDG_STATE_HOME"
  if dir ≠ "" then (dir, none)
  else
    match HomeDir p with
    | (_, some err) => ("", some err)
    | (home, none) => (Join .linux [home, ".local", "state"], none)

/-- The method `(*linuxDirs).getUserDir`: the XDG variable when it is set and
not empty, the default path under the home directory otherwise. -/
def getUserDir (p : Platform) (envVar defaultSubPath : String) : Result :=
  let dir := p.Getenv envVar
  if dir ≠ "" then (dir, none)
  else
    match HomeDir p with
    | (_, some err) => ("", some err)
    | (home, none) => (Join .linux [home, defaultSubPath], none)

/-- The method `(*linuxDirs).AudioDir`. -/
def AudioDir (p : Platform) : Result :=
  getUserDir p "XDG_MUSIC_DIR" "Music"

/-- The method `(*linuxDirs).DesktopDir`. -/
def DesktopDir (p : Platform) : Result :=
  getUserDir p "XDG_DESKTOP_DIR" "Desktop"

/-- The method `(*linuxDirs).DocumentDir`. -/
def DocumentDir (p : Platform) : Result :=
  getUserDir p "XDG_DOCUMENTS_DIR" "Documents"

/-- The method `(*linuxDirs).DownloadDir`. -/
def DownloadDir (p : Platform) : Result :=
  getUserDir p "XDG_DOWNLOAD_DIR" "Downloads"

/-- The method `(*linuxDirs).FontDir`. -/
def FontDir (p : Platform) : Result :=
  match DataDir p with
  | (_, some err) => ("", some err)
  | (dataDir, none) => (Join .linux [dataDir, "fonts"], none)

/-- The method `(*linuxDirs).PictureDir`. -/
def PictureDir (p : Platform) : Result :=
  getUserDir p "XDG_PICTURES_DIR" "Pictures"

/-- The method `(*linuxDirs).PublicDir`. -/
def PublicDir (p : Platform) : Result :=
  getUserDir p "XDG_PUBLICSHARE_DIR" "Public"

/-- The method `(*linuxDirs).TemplateDir`. -/
def TemplateDir (p : Platform) : Result :=
  getUserDir p "XDG_TEMPLATES_DIR" "Templates"

/-- The method `(*linuxDirs).VideoDir`. -/
def VideoDir (p : Platform) : Result :=
  getUserDir p "XDG_VIDEOS_DIR" "Videos"

end linuxDirs

/-! ## `dirs_darwin.go` -/

namespace darwinDirs

/-- The method `(*darwinDirs).HomeDir`. -/
def HomeDir (p : Platform) : Result :=
  p.osUserHomeDir

/-- The method `(*darwinDirs).CacheDir`. -/
def CacheDir (p : Platform) : Result :=
  match HomeDir p with
  | (_, some err) => ("", some err)
  | (home, none) => (Join .darwin [home, "Library", "Caches"], none)

/-- The method `(*darwinDirs).ConfigDir`. -/
def ConfigDir (p : Platform) : Result :=
  match HomeDir p with
  | (_, some err) => ("", some err)
  | (home, none) => (Join .darwin [home, "Library", "Application Support"], none)

/-- The method `(*darwinDirs).DataDir`. -/
def DataDir (p : Platform) : Result :=
  match HomeDir p with
  | (_, some err) => ("", some err)
  | (home, none) => (Join .darwin [home, "Library", "Application Support"], none)

/-- The method `(*darwinDirs).DataLocalDir`. -/
def DataLocalDir (p : Platform) : Result :=
  DataDir p

/-- The method `(*darwinDirs).ExecutableDir`. -/
def ExecutableDir (_p : Platform) : Result :=
  ("", none)

/-- The method `(*darwinDirs).PreferenceDir`. -/
def PreferenceDir (p : Platform) : Result :=
  match HomeDir p with
  | (_, some err) => ("", some err)
  | (home, none) => (Join .darwin [home, "Library", "Preferences"], none)

/-- The method `(*darwinDirs).RuntimeDir`. -/
def RuntimeDir (_p : Platform) : Result :=
  ("", none)

/-- The method `(*darwinDirs).StateDir`. -/
def StateDir (_p : Platform) : Result :=
  ("", none)

/-- The method `(*darwinDirs).getUserHomeSubDir`: a standard user directory
under the home directory. -/
def getUserHomeSubDir (p : Platform) (subPath : String) : Result :=
  match HomeDir p with
  | (_, some err) => ("", some err)
  | (home, none) => (Join .darwin [home, subPath], none)

/-- The method `(*darwinDirs).AudioDir`. -/
def AudioDir (p : Platform) : Result :=
  getUserHomeSubDir p "Music"

/-- The method `(*darwinDirs).DesktopDir`. -/
def DesktopDir (p : Platform) : Result :=
  getUserHomeSubDir p "Desktop"

/-- The method `(*darwinDirs).DocumentDir`. -/
def DocumentDir (p : Platform) : Result :=
  getUserHomeSubDir p "Documents"

/-- The method `(*darwinDirs).DownloadDir`. -/
def DownloadDir (p : Platform) : Result :=
  getUserHomeSubDir p "Downloads"

/-- The method `(*darwinDirs).FontDir`. -/
def FontDir (p : Platform) : Result :=
  match HomeDir p with
  | (_, some err) => ("", some err)
  | (home, none) => (Join .darwin [home, "Library", "Fonts"], none)

/-- The method `(*darwinDirs).PictureDir`. -/
def PictureDir (p : Platform) : Result :=
  getUserHomeSubDir p "Pictures"

/-- The method `(*darwinDirs).PublicDir`. -/
def PublicDir (p : Platform) : Result :=
  getUserHomeSubDir p "Public"

/-- The method `(*darwinDirs).TemplateDir`. -/
def TemplateDir (_p : Platform) : Result :=
  ("", none)

/-- The method `(*darwinDirs).VideoDir`. -/
def VideoDir (p : Platform) : Result :=
  getUserHomeSubDir p "Movies"

end darwinDirs

/-! ## `dirs_windows.go` -/

namespace windowsDirs

/-- The method `(*windowsDirs).HomeDir`. -/
def HomeDir (p : Platform) : Result :=
  p.osUserHomeDir

/-- The method `(*windowsDirs).CacheDir`. -/
def CacheDir (p : Platform) : Result :=
  (p.Getenv "LOCALAPPDATA", none)

/-- The method `(*windowsDirs).ConfigDir`. -/
def ConfigDir (p : Platform) : Result :=
  (p.Getenv "APPDATA", none)

/-- The method `(*windowsDirs).DataDir`. -/
def DataDir (p : Platform) : Result :=
  (p.Getenv "APPDATA", none)

/-- The method `(*windowsDirs).DataLocalDir`. -/
def DataLocalDir (p : Platform) : Result :=
  (p.Getenv "LOCALAPPDATA", none)

/-- The method `(*windowsDirs).ExecutableDir`. -/
def ExecutableDir (_p : Platform) : Result :=
  ("", none)

/-- The method `(*windowsDirs).PreferenceDir`. -/
def PreferenceDir (p : Platform) : Result :=
  (p.Getenv "APPDATA", none)

/-- The method `(*windowsDirs).RuntimeDir`. -/
def RuntimeDir (_p : Platform) : Result :=
  ("", none)

/-- The method `(*windowsDirs).StateDir`. -/
def StateDir (_p : Platform) : Result :=
  ("", none)

/-- The method `(*windowsDirs).AudioDir`. -/
def AudioDir (p : Platform) : Result :=
  (Join .windows [p.Getenv "USERPROFILE", "Music"], none)

/-- The method `(*windowsDirs).DesktopDir`. -/
def DesktopDir (p : Platform) : Result :=
  (Join .windows [p.Getenv "USERPROFILE", "Desktop"], none)

/-- The method `(*windowsDirs).DocumentDir`. -/
def DocumentDir (p : Platform) : Result :=
  (Join .windows [p.Getenv "USERPROFILE", "Documents"], none)

/-- The method `(*windowsDirs).DownloadDir`. -/
def DownloadDir (p : Platform) : Result :=
  (Join .windows [p.Getenv "USERPROFILE", "Downloads"], none)

/-- The method `(*windowsDirs).FontDir`. -/
def FontDir (_p : Platform) : Result :=
  ("", none)

/-- The method `(*windowsDirs).PictureDir`. -/
def PictureDir (p : Platform) : Result :=
  (Join .windows [p.Getenv "USERPROFILE", "Pictures"], none)

/-- The method `(*windowsDirs).PublicDir`. -/
def PublicDir (p : Platform) : Result :=
  (Join .windows [p.Getenv "PUBLIC"], none)

/-- The method `(*windowsDirs).TemplateDir`. -/
def TemplateDir (p : Platform) : Result :=
  (Join .windows [p.Getenv "APPDATA", "Microsoft", "Windows", "Templates"], none)

/-- The method `(*windowsDirs).VideoDir`. -/
def VideoDir (p : Platform) : Result :=
  (Join .windows [p.Getenv "USERPROFILE", "Videos"], none)

end windowsDirs

/-! ## Auxiliary definitions for the statements -/

/-- The variable `key` is unset or empty in the environment of `p`. -/
def Platform.unsetOrEmpty (p : Platform) (key : String) : Prop :=
  p.LookupEnv key = none ∨ p.LookupEnv key = some ""

/-- The environment in which exactly the listed variables are set. -/
def envOf (vars : List (String × String)) (key : String) : Option String :=
  (vars.find? (fun kv => kv.1 = key)).map (fun kv => kv.2)

/-- A Unix environment in which each of the 14 XDG variables holds the same
uncleaned path and the home-directory lookup fails. -/
def overridden : Platform where
  LookupEnv := envOf (["XDG_CACHE_HOME", "XDG_CONFIG_HOME", "XDG_DATA_HOME", "XDG_BIN_HOME", "XDG_RUNTIME_DIR", "XDG_STATE_HOME", "XDG_MUSIC_DIR", "XDG_DESKTOP_DIR", "XDG_DOCUMENTS_DIR", "XDG_DOWNLOAD_DIR", "XDG_PICTURES_DIR", "XDG_PUBLICSHARE_DIR", "XDG_TEMPLATES_DIR", "XDG_VIDEOS_DIR"].map
    (fun k => (k, "/srv//over/../ride/")))
  UserHomeDir := .error "$HOME is not defined"

/-- A Unix environment with no XDG variable set and home `/home/alice`. -/
def alice : Platform where
  LookupEnv := envOf [("HOME", "/home/alice"), ("XDG_DATA_HOME", "")]
  UserHomeDir := .ok "/home/alice"

/-- The failure behaviour of a getter result `r` on the platform `p`: `r`
carries a failure exactly when `needsHome` holds and the home-directory lookup
fails, and a failing `r` is the empty path with the failure of that lookup. -/
def failsExactlyWhen (p : Platform) (r : Result) (needsHome : Prop) : Prop :=
  (r.2 ≠ none ↔ needsHome ∧ p.osUserHomeDir.2 ≠ none) ∧
  (r.2 ≠ none → r = ("", p.osUserHomeDir.2))

/-- An Apple environment with home `/Users/bob`, in which the XDG variables
are set all the same. -/
def bob : Platform where
  LookupEnv := overridden.LookupEnv
  UserHomeDir := .ok "/Users/bob"

/-- A Windows environment whose `PUBLIC` ends in a path separator. -/
def publicTrailing : Platform where
  LookupEnv := envOf [("USERPROFILE", "C:\\Users\\bob"), ("PUBLIC", "C:\\Users\\Public\\")]
  UserHomeDir := .ok "C:\\Users\\bob"

/-- A Unix environment with `XDG_CONFIG_HOME` set to `/etc/custom-cfg` and no
home directory. -/
def customCfg : Platform where
  LookupEnv := envOf [("XDG_CONFIG_HOME", "/etc/custom-cfg")]
  UserHomeDir := .error "$HOME is not defined"

/-- The state of the main loop of `Clean` on a rooted path: the output begins
with the separator and `dotdot` is `1`. -/
def rootedState (os : GOOS) (st : lazybuf × Nat) : Prop :=
  st.2 = 1 ∧ ∃ t, st.1.out = Separator os :: t

/-- The path behaviour of a Unix getter result `r` governed by the variable
`key`: `r` carries no failure, its path is not empty, and the path is absolute
when `key` is unset, empty or holds an absolute path. -/
def absoluteWhenGoverned (p : Platform) (r : Result) (key : String) : Prop :=
  r.2 = none ∧ r.1 ≠ "" ∧
  ((p.unsetOrEmpty key ∨ IsAbs .linux (p.Getenv key) = true) → IsAbs .linux r.1 = true)

/-- A Unix environment with home `/home/alice` and a relative `XDG_CACHE_HOME`. -/
def relativeCache : Platform where
  LookupEnv := envOf [("XDG_CACHE_HOME", "cache/dir")]
  UserHomeDir := .ok "/home/alice"

/-- A path element that `Clean` keeps as it is and that `Join` sets off with a
separator: not empty, not `.` or `..`, and free of separators and colons. -/
def isRealElement (e : List Char) : Bool :=
  e != [] && e != ['.'] && e != ['.', '.'] &&
    e.all (fun c => !IsPathSeparator .windows c && c != ':')

/-- The elements `es`, each preceded by a backslash. -/
def backslashed : List (List Char) → List Char
  | [] => []
  | e :: es => '\\' :: e ++ backslashed es

/-- The text `b` ends in a character that is neither a separator nor a colon. -/
def endsReal (b : List Char) : Prop :=
  ∃ l, b.getLast? = some l ∧ IsPathSeparator .windows l = false ∧ l ≠ ':'

/-- A Windows environment whose variables are written with forward slashes. -/
def forwardSlashes : Platform where
  LookupEnv := envOf [("USERPROFILE", "C:/Users/bob"),
    ("APPDATA", "C:/Users/bob/AppData/Roaming")]
  UserHomeDir := .ok "C:/Users/bob"

/-- A Windows environment with the usual clean values. -/
def windowsBob : Platform where
  LookupEnv := envOf [("USERPROFILE", "C:\\Users\\bob"),
    ("APPDATA", "C:\\Users\\bob\\AppData\\Roaming"),
    ("LOCALAPPDATA", "C:\\Users\\bob\\AppData\\Local"), ("PUBLIC", "C:\\Users\\Public")]
  UserHomeDir := .ok "C:\\Users\\bob"

/-- A Windows environment in which no variable is set. -/
def bareWindows : Platform where
  LookupEnv := envOf []
  UserHomeDir := .error "%userprofile% is not defined"

/-- A Unix environment with home `/home/alice` that agrees with `alice` on
`XDG_CONFIG_HOME` and `XDG_DATA_HOME` and differs from it on other variables. -/
def aliceBusy : Platform where
  LookupEnv := envOf [("XDG_DATA_HOME", ""), ("XDG_CACHE_HOME", "/var/cache/alice"),
    ("XDG_RUNTIME_DIR", "/run/user/1000"), ("LANG", "C")]
  UserHomeDir := .ok "/home/alice"

/-- The beginning of a clean Windows path, before its backslash-led elements:
nothing (the path is rooted on the current drive), a first element (a relative
path), `k + 1` times `..` (a relative path that goes up), a drive `d:`, a
drive and a first element `d:e`, a drive and `k + 1` times `..`, or a UNC
volume `\\host\share`. -/
inductive PathHead where
  | rooted
  | relative (e : List Char)
  | up (k : Nat)
  | drive (d : Char)
  | driveRelative (d : Char) (e : List Char)
  | driveUp (d : Char) (k : Nat)
  | unc (host share : List Char)

/-- The text of `k + 1` elements `..`, separated by backslashes. -/
def dotDots (k : Nat) : List Char :=
  '.' :: '.' :: backslashed (List.replicate k ['.', '.'])

/-- The text of a head. -/
def PathHead.chars : PathHead → List Char
  | .rooted => []
  | .relative e => e
  | .up k => dotDots k
  | .drive d => [d, ':']
  | .driveRelative d e => d :: ':' :: e
  | .driveUp d k => d :: ':' :: dotDots k
  | .unc host share => '\\' :: '\\' :: (host ++ '\\' :: share)

/-- A head is well formed: the drive is a letter, the first element, the host
and the share are real elements, and the host is not `?` (a host `.` or `?`
makes a device path). -/
def PathHead.valid : PathHead → Bool
  | .rooted => true
  | .relative e => isRealElement e
  | .up _ => true
  | .drive d => d.isAlpha
  | .driveRelative d e => d.isAlpha && isRealElement e
  | .driveUp d _ => d.isAlpha
  | .unc host share => isRealElement host && isRealElement share && host != ['?']

/-- The elements a head can be followed by: after no head the first element is
not `??` (`\??\` begins a device path). -/
def PathHead.admits : PathHead → List (List Char) → Bool
  | .rooted, e :: _ => e != ['?', '?']
  | _, _ => true

/-- The heads that are not a path without a backslash after them: nothing and
`d:`. -/
def PathHead.bare : PathHead → Bool
  | .rooted => true
  | .drive _ => true
  | _ => false

/-- The string `s` is a clean Windows path: a head, then real elements, each
after one backslash, then at most one trailing backslash, as in `C:\Users\bob`,
`C:\`, `\\host\share\bob\`, `\Users\bob`, `Users\bob` or `..\bob`; neither the
empty string nor a bare `d:`. -/
def cleanWindowsPath (s : String) : Prop :=
  ∃ (hd : PathHead) (es : List (List Char)) (trail : Bool),
    hd.valid = true ∧ (∀ e ∈ es, isRealElement e = true) ∧ hd.admits es = true ∧
    (hd.bare = true → es = [] → trail = true) ∧
    s.data = hd.chars ++ backslashed es ++ (if trail then ['\\'] else [])

/-- The string `s`, with a backslash added unless it ends in one. -/
def withSeparator (s : String) : String :=
  if s.data.getLast? = some '\\' then s else s ++ "\\"

/-- The result `r` lies under the directory `base`: it carries no failure, its
path is `base`, a backslash unless `base` ends in one, and `suffix`; so the
path starts with `base`, also when both are compared in lower case, and ends
with a backslash and `suffix`. -/
def liesUnder (r : Result) (base suffix : String) : Prop :=
  r = (withSeparator base ++ suffix, none) ∧
  HasPrefix (ToLower r.1) (ToLower base) = true ∧
  HasSuffix r.1 ("\\" ++ suffix) = true

/-- A Windows environment whose `USERPROFILE` is a UNC path with a trailing
backslash and whose `APPDATA` is the root of a drive. -/
def windowsShare : Platform where
  LookupEnv := envOf [("USERPROFILE", "\\\\fileserver\\home\\bob\\"), ("APPDATA", "D:\\")]
  UserHomeDir := .ok "\\\\fileserver\\home\\bob\\"

/-! ## Lemmas on the primitives -/

theorem Getenv_eq_empty_iff (p : Platform) (key : String) :
    p.Getenv key = "" ↔ p.unsetOrEmpty key := by
  unfold Platform.Getenv Platform.unsetOrEmpty
  cases h : p.LookupEnv key <;> simp

theorem Getenv_of_lookup (p : Platform) (key X : String) (h : p.LookupEnv key = some X) :
    p.Getenv key = X := by
  simp [Platform.Getenv, h]

theorem osUserHomeDir_ok (p : Platform) (h : String) (hh : p.UserHomeDir = .ok h) :
    p.osUserHomeDir = (h, none) := by
  simp [Platform.osUserHomeDir, hh]

theorem osUserHomeDir_error (p : Platform) (e : GoError) (hh : p.UserHomeDir = .error e) :
    p.osUserHomeDir = ("", some e) := by
  simp [Platform.osUserHomeDir, hh]

/-- On Unix, joining `h` with two elements is joining it with their
slash-separated concatenation. -/
theorem Join_unix_two (os : GOOS) (hos : os ≠ .windows) (h a b : String) (ha : a ≠ "") :
    Join os [h, a, b] = Join os [h, a ++ "/" ++ b] := by
  have ha' : a.data ≠ [] := fun hd => ha (String.ext hd)
  have hab : a.data ++ '/' :: b.data ≠ [] := by simp
  cases os <;> first | exact absurd rfl hos | skip
  all_goals
    by_cases hh : h.data = []
    · simp [Join, joinChars, joinUnix, hh, ha', List.intercalate]
    · simp [Join, joinChars, joinUnix, hh, List.intercalate]

/-- The failure behaviour of a getter of the shape "override variable, else a
path computed from the home directory". -/
theorem failsExactlyWhen_override (p : Platform) (key : String) (f : String → String) :
    failsExactlyWhen p
      (if p.Getenv key ≠ "" then (p.Getenv key, none)
       else
        match p.osUserHomeDir with
        | (_, some err) => ("", some err)
        | (home, none) => (f home, none))
      (p.unsetOrEmpty key) := by
  rw [← Getenv_eq_empty_iff]
  unfold failsExactlyWhen Platform.osUserHomeDir
  by_cases hv : p.Getenv key = "" <;> cases p.UserHomeDir <;> simp [hv]

/-- The failure behaviour of a getter that computes its path from the home
directory alone. -/
theorem failsExactlyWhen_home (p : Platform) (f : String → String) :
    failsExactlyWhen p
      (match p.osUserHomeDir with
        | (_, some err) => ("", some err)
        | (home, none) => (f home, none))
      True := by
  unfold failsExactlyWhen Platform.osUserHomeDir
  cases p.UserHomeDir <;> simp

/-- The failure behaviour of the Unix `FontDir`, which goes through `DataDir`. -/
theorem failsExactlyWhen_linux_FontDir (p : Platform) :
    failsExactlyWhen p (linuxDirs.FontDir p) (p.unsetOrEmpty "XDG_DATA_HOME") := by
  rw [← Getenv_eq_empty_iff]
  unfold failsExactlyWhen linuxDirs.FontDir linuxDirs.DataDir linuxDirs.HomeDir
    Platform.osUserHomeDir
  by_cases hv : p.Getenv "XDG_DATA_HOME" = "" <;> cases p.UserHomeDir <;> simp [hv]

/-- The failure behaviour of `HomeDir` itself. -/
theorem failsExactlyWhen_osUserHomeDir (p : Platform) :
    failsExactlyWhen p p.osUserHomeDir True := by
  unfold failsExactlyWhen Platform.osUserHomeDir
  cases p.UserHomeDir <;> simp

/-! ## Lemmas on `filepath.Clean` and `filepath.Join` -/

theorem lazybuf_append_out (b : lazybuf) (c : Char) : (b.append c).out = b.out ++ [c] := by
  unfold lazybuf.append
  split_ifs <;> rfl

theorem lazybuf_appendAll_out (b : lazybuf) (cs : List Char) :
    (b.appendAll cs).out = b.out ++ cs := by
  unfold lazybuf.appendAll
  induction cs generalizing b with
  | nil => simp
  | cons c cs ih => simp [List.foldl, ih, lazybuf_append_out]

theorem backtrackRev_keeps_last (os : GOOS) (n : Nat) (l : List Char) (x : Char)
    (h : n + 1 ≤ l.length) : ∃ k, backtrackRev os n (l ++ [x]) = k ++ [x] := by
  induction n generalizing l with
  | zero =>
    cases l with
    | nil => simp at h
    | cons c r => exact ⟨r, by simp [backtrackRev]⟩
  | succ n ih =>
    cases l with
    | nil => simp at h
    | cons c r =>
      simp only [List.cons_append, backtrackRev]
      split
      · exact ⟨r, rfl⟩
      · exact ih r (by simpa using h)

theorem cleanStep_rooted (os : GOOS) (st : lazybuf × Nat) (e : List Char)
    (h : rootedState os st) : rootedState os (cleanStep os true st e) := by
  obtain ⟨out, dotdot⟩ := st
  obtain ⟨hd, t, ht⟩ := h
  simp only at hd ht
  subst hd
  unfold cleanStep
  simp only
  split_ifs with h1 h2 h3 h4 h5 h6
  · exact ⟨rfl, t, ht⟩
  · exact ⟨rfl, t, ht⟩
  · refine ⟨rfl, ?_⟩
    simp only [lazybuf.backtrack, ht, List.reverse_cons]
    have hlen : t.length ≥ 1 := by
      rw [ht] at h4
      simp at h4
      omega
    obtain ⟨k, hk⟩ := backtrackRev_keeps_last os ((Separator os :: t).length - 1 - 1)
      t.reverse (Separator os) (by simp; omega)
    rw [hk]
    exact ⟨k.reverse, by simp⟩
  · simp at h5
  · simp at h5
  · exact ⟨rfl, t, ht⟩
  · refine ⟨rfl, ?_⟩
    simp only [lazybuf_appendAll_out, lazybuf_append_out, ht]
    exact ⟨t ++ Separator os :: e, by simp⟩
  · refine ⟨rfl, ?_⟩
    simp only [lazybuf_appendAll_out, ht]
    exact ⟨t ++ e, by simp⟩

theorem foldl_cleanStep_rooted (os : GOOS) (elems : List (List Char)) (st : lazybuf × Nat)
    (h : rootedState os st) : rootedState os (elems.foldl (cleanStep os true) st) := by
  induction elems generalizing st with
  | nil => exact h
  | cons e es ih => exact ih _ (cleanStep_rooted os st e h)

theorem cleanChars_linux_rooted (rest : List Char) :
    ∃ t, cleanChars .linux ('/' :: rest) = '/' :: t := by
  have h0 : rootedState .linux
      (({ path := '/' :: rest, out := [], alloc := false, stale := [] } : lazybuf).append (Separator .linux), 1) :=
    ⟨rfl, [], by rw [lazybuf_append_out]; rfl⟩
  obtain ⟨_, t, ht⟩ := foldl_cleanStep_rooted .linux (splitElements .linux rest) _ h0
  refine ⟨t, ?_⟩
  have ht2 : (List.foldl (cleanStep .linux true)
      (({ path := '/' :: rest, out := [], alloc := false, stale := [] } : lazybuf).append '/', 1)
      (splitElements .linux rest)).1.out = '/' :: t := ht
  simp [cleanChars, volumeNameLen, IsPathSeparator, postClean, FromSlash, ht2, Separator]

theorem dot_if_empty_ne_nil (b : lazybuf) :
    (if b.out.length = 0 then b.append '.' else b).out ≠ [] := by
  split_ifs with h
  · simp [lazybuf_append_out]
  · intro h2
    exact h (by simp [h2])

theorem cleanChars_linux_ne_nil (path : List Char) : cleanChars .linux path ≠ [] := by
  cases path with
  | nil => simp [cleanChars, volumeNameLen]
  | cons c cs =>
    simp only [cleanChars, volumeNameLen, List.drop, postClean, FromSlash, List.take,
      List.nil_append]
    exact dot_if_empty_ne_nil _

theorem intercalate_rooted (t : List Char) (l : List (List Char)) :
    ∃ r, List.intercalate ['/'] (('/' :: t) :: l) = '/' :: r := by
  cases l with
  | nil => exact ⟨t, by simp [List.intercalate]⟩
  | cons x xs => exact ⟨_, by simp [List.intercalate, List.intersperse]; rfl⟩

theorem IsAbs_linux_iff (s : String) : IsAbs .linux s = true ↔ ∃ t, s.data = '/' :: t := by
  unfold IsAbs
  cases h : s.data with
  | nil => simp
  | cons c cs => simp

theorem Join_linux_rooted (h : String) (es : List String) (habs : IsAbs .linux h = true) :
    IsAbs .linux (Join .linux (h :: es)) = true ∧ Join .linux (h :: es) ≠ "" := by
  obtain ⟨t, ht⟩ := (IsAbs_linux_iff h).1 habs
  obtain ⟨r, hr⟩ := intercalate_rooted t (es.map String.data)
  obtain ⟨u, hu⟩ := cleanChars_linux_rooted r
  have hj : (Join .linux (h :: es)).data = '/' :: u := by
    simp [Join, joinChars, joinUnix, ht, hr, hu]
  refine ⟨(IsAbs_linux_iff _).2 ⟨u, hj⟩, ?_⟩
  intro h0
  rw [h0] at hj
  exact absurd hj (by simp)

theorem Join_linux_fonts_ne_empty (d : String) : Join .linux [d, "fonts"] ≠ "" := by
  intro h0
  have hd : (Join .linux [d, "fonts"]).data = [] := by rw [h0]
  by_cases hdd : d.data = []
  · simp [Join, joinChars, joinUnix, hdd, cleanChars_linux_ne_nil] at hd
  · simp [Join, joinChars, joinUnix, hdd, cleanChars_linux_ne_nil] at hd

theorem absoluteWhenGoverned_override (p : Platform) (h : String)
    (hh : p.UserHomeDir = .ok h) (habs : IsAbs .linux h = true) (key : String)
    (es : List String) :
    absoluteWhenGoverned p
      (if p.Getenv key ≠ "" then (p.Getenv key, none)
       else
        match p.osUserHomeDir with
        | (_, some err) => ("", some err)
        | (home, none) => (Join .linux (home :: es), none))
      key := by
  have hd := osUserHomeDir_ok p h hh
  have hj := Join_linux_rooted h es habs
  unfold absoluteWhenGoverned
  rw [← Getenv_eq_empty_iff]
  by_cases hv : p.Getenv key = ""
  · simp [hv, hd, hj.1, hj.2]
  · simp [hv]

theorem absoluteWhenGoverned_linux_FontDir (p : Platform) (h : String)
    (hh : p.UserHomeDir = .ok h) (habs : IsAbs .linux h = true) :
    absoluteWhenGoverned p (linuxDirs.FontDir p) "XDG_DATA_HOME" := by
  have hd := osUserHomeDir_ok p h hh
  unfold absoluteWhenGoverned
  rw [← Getenv_eq_empty_iff]
  by_cases hv : p.Getenv "XDG_DATA_HOME" = ""
  · have hj := Join_linux_rooted h [".local", "share"] habs
    have hf := Join_linux_rooted (Join .linux [h, ".local", "share"]) ["fonts"] hj.1
    simp [linuxDirs.FontDir, linuxDirs.DataDir, linuxDirs.HomeDir, hv, hd, hf.1, hf.2]
  · simp only [linuxDirs.FontDir, linuxDirs.DataDir, hv, ne_eq, not_false_eq_true, if_true,
      false_or]
    refine ⟨trivial, Join_linux_fonts_ne_empty _, ?_⟩
    intro ha
    exact (Join_linux_rooted _ ["fonts"] ha).1

theorem isAlpha_ascii (d : Char) (h : d.isAlpha = true) : d.val < 128 ∧ d ≠ '/' := by
  simp only [Char.isAlpha, Char.isUpper, Char.isLower, Bool.or_eq_true, Bool.and_eq_true,
    decide_eq_true_eq] at h
  constructor
  · rcases h with h | h
    · exact @Nat.lt_of_le_of_lt _ 90 _ h.2 (by decide)
    · exact @Nat.lt_of_le_of_lt _ 122 _ h.2 (by decide)
  · rintro rfl
    revert h
    decide

theorem isRealElement_spec (e : List Char) (h : isRealElement e = true) :
    e ≠ [] ∧ e ≠ ['.'] ∧ e ≠ ['.', '.'] ∧
      ∀ c ∈ e, IsPathSeparator .windows c = false ∧ c ≠ ':' := by
  simp only [isRealElement, Bool.and_eq_true, bne_iff_ne, ne_eq, List.all_eq_true,
    Bool.not_eq_true'] at h
  exact ⟨h.1.1.1, h.1.1.2, h.1.2, h.2⟩

theorem backslashed_append (es fs : List (List Char)) :
    backslashed (es ++ fs) = backslashed es ++ backslashed fs := by
  induction es with
  | nil => rfl
  | cons e es ih => simp [backslashed, ih]

theorem splitElements_real (es : List (List Char))
    (hes : ∀ e ∈ es, ∀ c ∈ e, IsPathSeparator .windows c = false) (e : List Char)
    (he : ∀ c ∈ e, IsPathSeparator .windows c = false) :
    splitElements .windows (e ++ backslashed es) = e :: es := by
  induction es generalizing e with
  | nil =>
    induction e with
    | nil => rfl
    | cons c e ih =>
      have hc := he c (List.mem_cons_self _ _)
      have := ih (fun x hx => he x (List.mem_cons_of_mem _ hx))
      simp only [backslashed, List.append_nil] at this ⊢
      simp [splitElements, hc, this]
  | cons f fs ihf =>
    induction e with
    | nil =>
      have := ihf (fun x hx => hes x (List.mem_cons_of_mem _ hx)) f
        (hes f (List.mem_cons_self _ _))
      simp [backslashed, splitElements, IsPathSeparator, this]
    | cons c e ih =>
      have hc := he c (List.mem_cons_self _ _)
      have := ih (fun x hx => he x (List.mem_cons_of_mem _ hx))
      simp only [List.cons_append]
      simp [splitElements, hc, this]

theorem map_fromSlash_id (l : List Char) (h : ∀ c ∈ l, c ≠ '/') :
    l.map (fun c => if c = '/' then '\\' else c) = l := by
  induction l with
  | nil => rfl
  | cons c cs ih =>
    have hc := h c (List.mem_cons_self _ _)
    simp [hc, ih (fun x hx => h x (List.mem_cons_of_mem _ hx))]

theorem backslashed_no_slash (es : List (List Char))
    (hes : ∀ e ∈ es, isRealElement e = true) : ∀ c ∈ backslashed es, c ≠ '/' := by
  induction es with
  | nil => simp [backslashed]
  | cons e es ih =>
    intro c hc
    simp only [backslashed, List.mem_cons, List.mem_append] at hc
    rcases hc with (rfl | hc) | hc
    · decide
    · have := ((isRealElement_spec e (hes e (List.mem_cons_self _ _))).2.2.2 c hc).1
      rintro rfl
      revert this
      decide
    · exact ih (fun x hx => hes x (List.mem_cons_of_mem _ hx)) c hc

theorem cleanChars_of_drop (os : GOOS) (orig : List Char) (c : Char) (cs : List Char)
    (h : orig.drop (volumeNameLen os orig) = c :: cs) :
    cleanChars os orig =
      FromSlash os (orig.take (volumeNameLen os orig) ++
        (postClean os (volumeNameLen os orig)
          (if ((splitElements os (if IsPathSeparator os c then cs else c :: cs)).foldl
                (cleanStep os (IsPathSeparator os c))
                (if IsPathSeparator os c then
                  (({ path := c :: cs, out := [], alloc := false, stale := [] } : lazybuf).append
                    (Separator os), 1)
                 else (({ path := c :: cs, out := [], alloc := false, stale := [] } : lazybuf), 0))).1.out.length
              = 0 then
            ((splitElements os (if IsPathSeparator os c then cs else c :: cs)).foldl
                (cleanStep os (IsPathSeparator os c))
                (if IsPathSeparator os c then
                  (({ path := c :: cs, out := [], alloc := false, stale := [] } : lazybuf).append
                    (Separator os), 1)
                 else (({ path := c :: cs, out := [], alloc := false, stale := [] } : lazybuf), 0))).1.append '.'
           else
            ((splitElements os (if IsPathSeparator os c then cs else c :: cs)).foldl
                (cleanStep os (IsPathSeparator os c))
                (if IsPathSeparator os c then
                  (({ path := c :: cs, out := [], alloc := false, stale := [] } : lazybuf).append
                    (Separator os), 1)
                 else (({ path := c :: cs, out := [], alloc := false, stale := [] } : lazybuf), 0))).1)).out) := by
  unfold cleanChars
  simp only [h]

theorem endsReal_of_real (e : List Char) (he : isRealElement e = true) : endsReal e := by
  obtain ⟨h1, _, _, h4⟩ := isRealElement_spec e he
  exact ⟨e.getLast h1, List.getLast?_eq_getLast e h1, h4 _ (List.getLast_mem h1)⟩

theorem endsReal_append (a b : List Char) (hb : endsReal b) : endsReal (a ++ b) := by
  obtain ⟨l, hl, h1, h2⟩ := hb
  exact ⟨l, by simp [List.getLast?_append, hl], h1, h2⟩

theorem endsReal_backslashed (es : List (List Char)) (hne : es ≠ [])
    (hes : ∀ e ∈ es, isRealElement e = true) (a : List Char) :
    endsReal (a ++ backslashed es) := by
  induction es generalizing a with
  | nil => exact absurd rfl hne
  | cons e es ih =>
    by_cases h : es = []
    · subst h
      have := endsReal_append (a ++ ['\\']) e (endsReal_of_real e (hes e (List.mem_cons_self _ _)))
      simpa [backslashed] using this
    · have := ih h (fun x hx => hes x (List.mem_cons_of_mem _ hx)) (a ++ '\\' :: e)
      simpa [backslashed] using this

theorem joinWindowsLoop_real (ms : List (List Char))
    (hms : ∀ m ∈ ms, isRealElement m = true) (b : List Char) (l : Char) (hb : b ≠ [])
    (h1 : IsPathSeparator .windows l = false) (h2 : l ≠ ':') :
    joinWindowsLoop ms b l = b ++ backslashed ms := by
  induction ms generalizing b l with
  | nil => simp [joinWindowsLoop, backslashed]
  | cons e ms ih =>
    obtain ⟨k, hk, k1, k2⟩ := endsReal_of_real e (hms e (List.mem_cons_self _ _))
    have hlen : b.length ≠ 0 := by
      cases b with
      | nil => exact absurd rfl hb
      | cons x xs => simp
    rw [joinWindowsLoop]
    simp only [hlen, if_false, h1, h2, hk, Bool.false_eq_true]
    rw [ih (fun x hx => hms x (List.mem_cons_of_mem _ hx)) _ k (by simp) k1 k2]
    simp [backslashed]

theorem Getenv_of_unset (p : Platform) (key : String) (h : p.LookupEnv key = none) :
    p.Getenv key = "" := by
  simp [Platform.Getenv, h]

theorem Getenv_congr (p q : Platform) (key : String)
    (h : p.LookupEnv key = q.LookupEnv key) : p.Getenv key = q.Getenv key := by
  simp [Platform.Getenv, h]

theorem lazybuf_append_verbatim (b : lazybuf) (c : Char) (rest : List Char)
    (h1 : b.alloc = false) (h2 : b.path = b.out ++ c :: rest) :
    b.append c = { b with out := b.out ++ [c] } := by
  unfold lazybuf.append
  have : b.path[b.out.length]? = some c := by
    rw [h2, List.getElem?_append_right (le_refl _)]
    simp
  simp [h1, this]

theorem lazybuf_appendAll_verbatim (cs : List Char) (b : lazybuf) (rest : List Char)
    (h1 : b.alloc = false) (h2 : b.path = b.out ++ cs ++ rest) :
    b.appendAll cs = { b with out := b.out ++ cs } := by
  induction cs generalizing b with
  | nil => simp [lazybuf.appendAll]
  | cons c cs ih =>
    have hc := lazybuf_append_verbatim b c (cs ++ rest) h1 (by simpa using h2)
    have := ih (b.append c) (by rw [hc]; exact h1) (by rw [hc]; simpa using h2)
    unfold lazybuf.appendAll at this ⊢
    rw [List.foldl_cons, this, hc]
    simp

/-- The first real element of a path goes to the output without a separator
before it. -/
theorem cleanStep_first (rooted : Bool) (b : lazybuf) (dd : Nat) (f rest : List Char)
    (hf : isRealElement f = true) (h1 : b.alloc = false)
    (h2 : b.path = b.out ++ f ++ rest)
    (hlen : b.out.length = if rooted then 1 else 0) :
    cleanStep .windows rooted (b, dd) f = ({ b with out := b.out ++ f }, dd) := by
  obtain ⟨f1, f2, f3, _⟩ := isRealElement_spec f hf
  unfold cleanStep
  simp only [f1, f2, f3, if_false]
  cases rooted <;> simp [hlen] at hlen ⊢ <;>
    simp [hlen, lazybuf_appendAll_verbatim f b rest h1 h2]

/-- A later real element goes to the output after one separator. -/
theorem cleanStep_next (rooted : Bool) (b : lazybuf) (dd : Nat) (f rest : List Char)
    (hf : isRealElement f = true) (h1 : b.alloc = false)
    (h2 : b.path = b.out ++ '\\' :: f ++ rest)
    (hlen : (if rooted then 1 else 0) < b.out.length) :
    cleanStep .windows rooted (b, dd) f = ({ b with out := b.out ++ '\\' :: f }, dd) := by
  obtain ⟨f1, f2, f3, _⟩ := isRealElement_spec f hf
  have ha := lazybuf_append_verbatim b '\\' (f ++ rest) h1 (by simpa using h2)
  have hb := lazybuf_appendAll_verbatim f (b.append '\\') rest (by rw [ha]; exact h1)
    (by rw [ha]; simpa using h2)
  unfold cleanStep
  simp only [f1, f2, f3, if_false]
  have hc : ((rooted && b.out.length != 1) || (!rooted && b.out.length != 0)) = true := by
    cases rooted
    · simp only [Bool.false_eq_true, if_false] at hlen
      simp
      intro h
      rw [h] at hlen
      simp at hlen
    · simp only [if_true] at hlen
      simp
      omega
  simp only [hc, if_true, Separator]
  rw [hb, ha]
  simp

theorem foldl_cleanStep_verbatim (rooted : Bool) (fs : List (List Char))
    (hfs : ∀ f ∈ fs, isRealElement f = true) (b : lazybuf) (dd : Nat)
    (h1 : b.alloc = false) (h2 : b.path = b.out ++ backslashed fs)
    (hlen : (if rooted then 1 else 0) < b.out.length) :
    fs.foldl (cleanStep .windows rooted) (b, dd) =
      ({ b with out := b.out ++ backslashed fs }, dd) := by
  induction fs generalizing b with
  | nil => simp [backslashed]
  | cons f fs ih =>
    have hs := cleanStep_next rooted b dd f (backslashed fs)
      (hfs f (List.mem_cons_self _ _)) h1 (by simpa [backslashed] using h2) hlen
    have hi := ih (fun x hx => hfs x (List.mem_cons_of_mem _ hx))
      { b with out := b.out ++ '\\' :: f } h1 (by simp [h2, backslashed])
      (by simp only [List.length_append, List.length_cons]; omega)
    rw [List.foldl_cons, hs, hi]
    simp [backslashed]

theorem real_cons (e : List Char) (he : isRealElement e = true) :
    ∃ c t, e = c :: t ∧ IsPathSeparator .windows c = false ∧ c ≠ ':' := by
  obtain ⟨h1, _, _, h4⟩ := isRealElement_spec e he
  cases e with
  | nil => exact absurd rfl h1
  | cons c t => exact ⟨c, t, rfl, h4 c (List.mem_cons_self _ _)⟩

theorem real_no_sep (e : List Char) (he : isRealElement e = true) :
    ∀ c ∈ e, IsPathSeparator .windows c = false :=
  fun c hc => ((isRealElement_spec e he).2.2.2 c hc).1

theorem real_length_pos (e : List Char) (he : isRealElement e = true) : 0 < e.length := by
  obtain ⟨c, t, rfl, _⟩ := real_cons e he
  simp

theorem dot_if_nonempty (b : lazybuf) (h : b.out ≠ []) :
    (if b.out.length = 0 then b.append '.' else b) = b := by
  rw [if_neg]
  intro h0
  exact h (List.length_eq_zero.1 h0)

theorem postClean_of_not_alloc (n : Nat) (b : lazybuf) (h : b.alloc = false) :
    postClean .windows n b = b := by
  simp [postClean, h]

/-- `Clean` leaves a path as it is when, after the volume name, it is real
elements, each after one backslash. -/
theorem cleanChars_verbatim_rooted (orig : List Char) (n : Nat) (fs : List (List Char))
    (hfs : ∀ f ∈ fs, isRealElement f = true) (hne : fs ≠ [])
    (hvol : volumeNameLen .windows orig = n) (hdrop : orig.drop n = backslashed fs)
    (hslash : ∀ c ∈ orig, c ≠ '/') : cleanChars .windows orig = orig := by
  cases fs with
  | nil => exact absurd rfl hne
  | cons f fs =>
    have hf := hfs f (List.mem_cons_self _ _)
    have hfs2 : ∀ x ∈ fs, isRealElement x = true := fun x hx => hfs x (List.mem_cons_of_mem _ hx)
    have hsplit := splitElements_real fs (fun x hx => real_no_sep x (hfs2 x hx)) f
      (real_no_sep f hf)
    have hsep : IsPathSeparator .windows '\\' = true := by decide
    have hpath : orig.drop (volumeNameLen .windows orig) = '\\' :: (f ++ backslashed fs) := by
      rw [hvol, hdrop]
      rfl
    have h0 := lazybuf_append_verbatim
      { path := '\\' :: (f ++ backslashed fs), out := [], alloc := false, stale := [] } '\\'
      (f ++ backslashed fs) rfl rfl
    have h1 := cleanStep_first true
      { path := '\\' :: (f ++ backslashed fs), out := ['\\'], alloc := false, stale := [] } 1 f
      (backslashed fs) hf rfl (by simp) rfl
    have h2 := foldl_cleanStep_verbatim true fs hfs2
      { path := '\\' :: (f ++ backslashed fs), out := '\\' :: f, alloc := false, stale := [] } 1
      rfl (by simp) (by have := real_length_pos f hf; simp; omega)
    rw [cleanChars_of_drop .windows orig '\\' (f ++ backslashed fs) hpath]
    simp only [hsep, if_true, hsplit, List.foldl_cons, Separator]
    rw [h0]
    simp only [List.nil_append] at h1 h2 ⊢
    rw [h1]
    simp only [List.cons_append, List.nil_append] at h2 ⊢
    rw [h2, dot_if_nonempty _ (by simp), postClean_of_not_alloc _ _ rfl, hvol]
    simp only [FromSlash]
    have : List.take n orig ++ '\\' :: (f ++ backslashed fs) = orig := by
      have := List.take_append_drop n orig
      rw [hdrop] at this
      simpa [backslashed] using this
    rw [this]
    exact map_fromSlash_id orig hslash

/-- `Clean` leaves a path as it is when, after the volume name, it is a real
element followed by real elements, each after one backslash. -/
theorem cleanChars_verbatim_relative (orig : List Char) (n : Nat) (e : List Char)
    (fs : List (List Char)) (he : isRealElement e = true)
    (hfs : ∀ f ∈ fs, isRealElement f = true)
    (hvol : volumeNameLen .windows orig = n) (hdrop : orig.drop n = e ++ backslashed fs)
    (hslash : ∀ c ∈ orig, c ≠ '/') : cleanChars .windows orig = orig := by
  obtain ⟨c, t, rfl, hc, _⟩ := real_cons e he
  have hsplit := splitElements_real fs (fun x hx => real_no_sep x (hfs x hx)) (c :: t)
    (real_no_sep _ he)
  have hpath : orig.drop (volumeNameLen .windows orig) = c :: (t ++ backslashed fs) := by
    rw [hvol, hdrop]
    rfl
  have h1 := cleanStep_first false
    { path := c :: (t ++ backslashed fs), out := [], alloc := false, stale := [] } 0 (c :: t)
    (backslashed fs) he rfl (by simp) rfl
  have h2 := foldl_cleanStep_verbatim false fs hfs
    { path := c :: (t ++ backslashed fs), out := c :: t, alloc := false, stale := [] } 0
    rfl (by simp) (by simp)
  rw [cleanChars_of_drop .windows orig c (t ++ backslashed fs) hpath]
  simp only [hc, Bool.false_eq_true, if_false]
  simp only [List.cons_append] at hsplit
  rw [hsplit, List.foldl_cons]
  simp only [List.nil_append] at h1 h2 ⊢
  rw [h1, h2, dot_if_nonempty _ (by simp), postClean_of_not_alloc _ _ rfl, hvol]
  simp only [FromSlash]
  have : List.take n orig ++ (c :: t ++ backslashed fs) = orig := by
    have := List.take_append_drop n orig
    rw [hdrop] at this
    exact this
  rw [this]
  exact map_fromSlash_id orig hslash

theorem toUpper_eq_of_not_letter (x c : Char) (hx : x.toNat < 65) (h : x.toUpper = c.toUpper) :
    c = x := by
  have hxu : x.toUpper = x := by
    unfold Char.toUpper
    simp only
    rw [if_neg]
    omega
  rw [hxu] at h
  unfold Char.toUpper at h
  simp only at h
  split_ifs at h with hn
  · exfalso
    have h2 : x.toNat = (Char.ofNat (c.toNat - 32)).toNat := by rw [h]
    obtain ⟨h3, h4⟩ := hn
    generalize c.toNat = n at h2 h3 h4
    interval_cases n <;> simp at h2 <;> omega
  · exact h.symm

theorem backslashed_cases (fs : List (List Char)) :
    backslashed fs = [] ∨ ∃ r, backslashed fs = '\\' :: r := by
  cases fs with
  | nil => exact Or.inl rfl
  | cons f fs => exact Or.inr ⟨_, rfl⟩

theorem volumeNameLen_drive (d : Char) (rest : List Char) (hd : d.isAlpha = true) :
    volumeNameLen .windows (d :: ':' :: rest) = 2 := by
  simp [volumeNameLen, (isAlpha_ascii d hd).1]

theorem volumeNameLen_relative (e : List Char) (fs : List (List Char))
    (he : isRealElement e = true) :
    volumeNameLen .windows (e ++ backslashed fs) = 0 := by
  obtain ⟨h1, _, _, h4⟩ := isRealElement_spec e he
  cases e with
  | nil => exact absurd rfl h1
  | cons c t =>
    have hc := h4 c (List.mem_cons_self _ _)
    cases t with
    | nil =>
      rcases backslashed_cases fs with h | ⟨r, h⟩ <;> simp [volumeNameLen, h, hc.1]
    | cons c2 t2 =>
      have hc2 := h4 c2 (List.mem_cons_of_mem _ (List.mem_cons_self _ _))
      simp [volumeNameLen, hc.1, hc2.2]

/-- A run of characters that is not the single character `x` does not match a
prefix pattern in which `x` is followed by a separator or by nothing. -/
theorem pathHasPrefixFold_element (x : Char) (hx : x.toNat < 65)
    (hxs : IsPathSeparator .windows x = false) (e rest ps : List Char)
    (he : ∀ c ∈ e, IsPathSeparator .windows c = false) (hne : e ≠ []) (hex : e ≠ [x])
    (hps : ps = [] ∨ ∃ q, ps = '\\' :: q) :
    pathHasPrefixFold (e ++ rest) (x :: ps) = false := by
  have hbs : IsPathSeparator .windows '\\' = true := by decide
  cases e with
  | nil => exact absurd rfl hne
  | cons c t =>
    simp only [List.cons_append, pathHasPrefixFold, hxs, Bool.false_eq_true, if_false]
    by_cases hcx : (x.toUpper == c.toUpper) = true
    · have hc : c = x := toUpper_eq_of_not_letter x c hx (by simpa using hcx)
      subst hc
      cases t with
      | nil => exact absurd rfl hex
      | cons c2 t2 =>
        have h2 := he c2 (List.mem_cons_of_mem _ (List.mem_cons_self _ _))
        rcases hps with h | ⟨q, h⟩ <;> subst h <;> simp [pathHasPrefixFold, h2, hbs]
    · simp [hcx]

theorem volumeNameLen_rooted (f : List Char) (fs : List (List Char))
    (hf : isRealElement f = true) (hq : f ≠ ['?', '?']) :
    volumeNameLen .windows ('\\' :: (f ++ backslashed fs)) = 0 := by
  have hbs : IsPathSeparator .windows '\\' = true := by decide
  have hqs : IsPathSeparator .windows '?' = false := by decide
  obtain ⟨c, t, rfl, hc, hcc⟩ := real_cons f hf
  have hsep := real_no_sep _ hf
  have h3 : pathHasPrefixFold ('\\' :: (c :: t ++ backslashed fs)) ['\\', '?', '?'] = false := by
    simp only [List.cons_append, pathHasPrefixFold, hbs, hqs, if_true, Bool.true_and,
      Bool.false_eq_true, if_false]
    by_cases hcx : ('?'.toUpper == c.toUpper) = true
    · have hc1 : c = '?' := toUpper_eq_of_not_letter '?' c (by decide) (by simpa using hcx)
      subst hc1
      cases t with
      | nil =>
        rcases backslashed_cases fs with h | ⟨r, h⟩
        · rw [h]
          simp [pathHasPrefixFold]
        · rw [h]
          simp only [List.nil_append, pathHasPrefixFold, hqs, Bool.false_eq_true, if_false]
          have : ('?'.toUpper == '\\'.toUpper) = false := by decide
          simp [this]
      | cons c2 t2 =>
        by_cases hcx2 : ('?'.toUpper == c2.toUpper) = true
        · have hc2 : c2 = '?' := toUpper_eq_of_not_letter '?' c2 (by decide) (by simpa using hcx2)
          subst hc2
          cases t2 with
          | nil => exact absurd rfl hq
          | cons c3 t3 =>
            have h3 := hsep c3 (by simp)
            simp [pathHasPrefixFold, h3, hqs]
        · simp only [List.cons_append, pathHasPrefixFold, hqs, Bool.false_eq_true, if_false,
            hcx2, Bool.false_and, Bool.and_false]
    · simp only [hcx, Bool.false_and]
  have h0 : ∀ ps, pathHasPrefixFold ('\\' :: (c :: t ++ backslashed fs)) ('\\' :: '\\' :: ps)
      = false := by
    intro ps
    simp [pathHasPrefixFold, hc, hbs]
  simp only [List.cons_append] at h0 h3
  simp [volumeNameLen, hcc, hc, h0, h3, hbs]

theorem uncLenFrom_run (e rest : List Char) (count i : Nat)
    (he : ∀ c ∈ e, IsPathSeparator .windows c = false) :
    uncLenFrom (e ++ rest) count i = uncLenFrom rest count (i + e.length) := by
  induction e generalizing i with
  | nil => simp
  | cons c t ih =>
    have hc := he c (List.mem_cons_self _ _)
    have hi := ih (i + 1) (fun x hx => he x (List.mem_cons_of_mem _ hx))
    simp only [List.cons_append, uncLenFrom, hc, Bool.false_eq_true, if_false,
      List.length_cons]
    rw [show i + (t.length + 1) = i + 1 + t.length by omega]
    exact hi

theorem volumeNameLen_unc (h s : List Char) (fs : List (List Char))
    (hh : isRealElement h = true) (hs : isRealElement s = true) (hq : h ≠ ['?'])
    (hne : fs ≠ []) :
    volumeNameLen .windows ('\\' :: '\\' :: (h ++ '\\' :: (s ++ backslashed fs))) =
      3 + h.length + s.length := by
  have hbs : IsPathSeparator .windows '\\' = true := by decide
  obtain ⟨h1, h2, _, _⟩ := isRealElement_spec h hh
  have hsep := real_no_sep h hh
  have e1 := pathHasPrefixFold_element '.' (by decide) (by decide) h
    ('\\' :: (s ++ backslashed fs)) ['\\', 'U', 'N', 'C'] hsep h1 h2 (Or.inr ⟨_, rfl⟩)
  have e2 := pathHasPrefixFold_element '.' (by decide) (by decide) h
    ('\\' :: (s ++ backslashed fs)) [] hsep h1 h2 (Or.inl rfl)
  have e3 := pathHasPrefixFold_element '?' (by decide) (by decide) h
    ('\\' :: (s ++ backslashed fs)) [] hsep h1 hq (Or.inl rfl)
  have p1 : pathHasPrefixFold ('\\' :: '\\' :: (h ++ '\\' :: (s ++ backslashed fs)))
      ['\\', '\\', '.', '\\', 'U', 'N', 'C'] = false := by
    simp only [pathHasPrefixFold, hbs, if_true, Bool.true_and]
    exact e1
  have p2 : pathHasPrefixFold ('\\' :: '\\' :: (h ++ '\\' :: (s ++ backslashed fs)))
      ['\\', '\\', '.'] = false := by
    simp only [pathHasPrefixFold, hbs, if_true, Bool.true_and]
    exact e2
  have p3 : pathHasPrefixFold ('\\' :: '\\' :: (h ++ '\\' :: (s ++ backslashed fs)))
      ['\\', '\\', '?'] = false := by
    simp only [pathHasPrefixFold, hbs, if_true, Bool.true_and]
    exact e3
  have p4 : pathHasPrefixFold ('\\' :: '\\' :: (h ++ '\\' :: (s ++ backslashed fs)))
      ['\\', '?', '?'] = false := by
    have hqs : IsPathSeparator .windows '?' = false := by decide
    have hne2 : ('?'.toUpper == '\\'.toUpper) = false := by decide
    simp only [pathHasPrefixFold, hbs, hqs, if_true, Bool.true_and, Bool.false_eq_true,
      if_false, hne2, Bool.false_and]
  have hlen : uncLen ('\\' :: '\\' :: (h ++ '\\' :: (s ++ backslashed fs))) 2 =
      3 + h.length + s.length := by
    cases fs with
    | nil => exact absurd rfl hne
    | cons f fs =>
      unfold uncLen
      rw [if_pos (by simp)]
      simp only [List.drop_succ_cons, List.drop_zero]
      rw [uncLenFrom_run h _ 0 2 hsep]
      simp only [uncLenFrom, hbs, if_true]
      rw [if_neg (by decide), uncLenFrom_run s _ _ _ (real_no_sep s hs)]
      simp only [backslashed, uncLenFrom, hbs, if_true]
      omega
  have hc1 : ('\\' == ':') = false := by decide
  simp only [volumeNameLen, hc1, Bool.and_false, Bool.false_eq_true, if_false, hbs,
    Bool.not_true, p1, p2, p3, p4, Bool.or_self, if_true, hlen]

theorem real_no_slash (e : List Char) (he : isRealElement e = true) : ∀ c ∈ e, c ≠ '/' := by
  intro c hc
  have := real_no_sep e he c hc
  rintro rfl
  revert this
  decide

theorem real_no_backslash (e : List Char) (he : isRealElement e = true) :
    ∀ c ∈ e, c ≠ '\\' := by
  intro c hc
  have := real_no_sep e he c hc
  rintro rfl
  revert this
  decide

theorem dotDots_no_sep : ∀ c ∈ ['.', '.'], IsPathSeparator .windows c = false := by
  decide

theorem replicate_dotDots_no_sep (k : Nat) (fs : List (List Char))
    (hfs : ∀ f ∈ fs, isRealElement f = true) :
    ∀ e ∈ List.replicate k ['.', '.'] ++ fs, ∀ c ∈ e, IsPathSeparator .windows c = false := by
  intro e he
  rcases List.mem_append.1 he with h | h
  · rw [(List.mem_replicate.1 h).2]
    exact dotDots_no_sep
  · exact real_no_sep e (hfs e h)

/-- The first `..` of a relative path goes to the output, and `dotdot` moves
behind it. -/
theorem cleanStep_up_first (b : lazybuf) (rest : List Char) (h1 : b.alloc = false)
    (hout : b.out = []) (h2 : b.path = '.' :: '.' :: rest) :
    cleanStep .windows false (b, 0) ['.', '.'] = ({ b with out := ['.', '.'] }, 2) := by
  have ha := lazybuf_append_verbatim b '.' ('.' :: rest) h1 (by rw [hout]; exact h2)
  have hb := lazybuf_append_verbatim (b.append '.') '.' rest (by rw [ha]; exact h1)
    (by rw [ha, hout]; exact h2)
  have hne : ¬ (['.', '.'] : List Char) = ['.'] := by decide
  unfold cleanStep
  simp only [List.cons_ne_nil, if_false, hne, if_true, hout, List.length_nil,
    gt_iff_lt, Nat.lt_irrefl, Bool.not_false]
  rw [hout] at ha
  rw [ha] at hb ⊢
  rw [hb]
  rfl

/-- A further `..` after `..` elements goes to the output after a separator. -/
theorem cleanStep_up_next (b : lazybuf) (rest : List Char) (h1 : b.alloc = false)
    (hpos : 0 < b.out.length) (h2 : b.path = b.out ++ '\\' :: '.' :: '.' :: rest) :
    cleanStep .windows false (b, b.out.length) ['.', '.'] =
      ({ b with out := b.out ++ ['\\', '.', '.'] }, b.out.length + 3) := by
  have ha := lazybuf_append_verbatim b '\\' ('.' :: '.' :: rest) h1 h2
  have hb := lazybuf_append_verbatim (b.append '\\') '.' ('.' :: rest) (by rw [ha]; exact h1)
    (by rw [ha]; simpa using h2)
  have hc := lazybuf_append_verbatim ((b.append '\\').append '.') '.' rest
    (by rw [hb, ha]; exact h1) (by rw [hb, ha]; simpa using h2)
  have hne : ¬ (['.', '.'] : List Char) = ['.'] := by decide
  unfold cleanStep
  simp only [List.cons_ne_nil, if_false, hne, if_true, gt_iff_lt, Nat.lt_irrefl,
    Bool.not_false, hpos, Separator]
  rw [hc, hb, ha]
  simp

theorem foldl_cleanStep_up (k : Nat) (b : lazybuf) (rest : List Char)
    (h1 : b.alloc = false) (hpos : 0 < b.out.length)
    (h2 : b.path = b.out ++ backslashed (List.replicate k ['.', '.']) ++ rest) :
    (List.replicate k ['.', '.']).foldl (cleanStep .windows false) (b, b.out.length) =
      ({ b with out := b.out ++ backslashed (List.replicate k ['.', '.']) },
        b.out.length + 3 * k) := by
  induction k generalizing b with
  | zero => simp [backslashed]
  | succ k ih =>
    have hs := cleanStep_up_next b (backslashed (List.replicate k ['.', '.']) ++ rest) h1 hpos
      (by simpa [List.replicate_succ, backslashed] using h2)
    have hi := ih { b with out := b.out ++ ['\\', '.', '.'] } h1 (by simp)
      (by simpa [List.replicate_succ, backslashed] using h2)
    simp only [List.length_append, List.length_cons, List.length_nil] at hi
    rw [List.replicate_succ, List.foldl_cons, hs, hi]
    simp only [backslashed, List.append_assoc, List.cons_append, List.nil_append,
      Prod.mk.injEq, lazybuf.mk.injEq, true_and, and_true]
    omega

/-- `Clean` leaves a path as it is when, after the volume name, it is `..`
elements followed by real elements, separated by single backslashes. -/
theorem cleanChars_verbatim_up (orig : List Char) (n k : Nat) (fs : List (List Char))
    (hfs : ∀ f ∈ fs, isRealElement f = true)
    (hvol : volumeNameLen .windows orig = n) (hdrop : orig.drop n = dotDots k ++ backslashed fs)
    (hslash : ∀ c ∈ orig, c ≠ '/') : cleanChars .windows orig = orig := by
  have hdot : IsPathSeparator .windows '.' = false := by decide
  have hbody : dotDots k ++ backslashed fs =
      ['.', '.'] ++ backslashed (List.replicate k ['.', '.'] ++ fs) := by
    simp [dotDots, backslashed_append]
  have hsplit := splitElements_real (List.replicate k ['.', '.'] ++ fs)
    (replicate_dotDots_no_sep k fs hfs) ['.', '.'] dotDots_no_sep
  have hpath : orig.drop (volumeNameLen .windows orig) =
      '.' :: ('.' :: backslashed (List.replicate k ['.', '.'] ++ fs)) := by
    rw [hvol, hdrop, hbody]
    rfl
  have h1 := cleanStep_up_first
    { path := '.' :: ('.' :: backslashed (List.replicate k ['.', '.'] ++ fs)), out := [],
      alloc := false, stale := [] }
    (backslashed (List.replicate k ['.', '.'] ++ fs)) rfl rfl rfl
  have h2 := foldl_cleanStep_up k
    { path := '.' :: ('.' :: backslashed (List.replicate k ['.', '.'] ++ fs)),
      out := ['.', '.'], alloc := false, stale := [] }
    (backslashed fs) rfl (by simp) (by simp [backslashed_append])
  have h3 := foldl_cleanStep_verbatim false fs hfs
    { path := '.' :: ('.' :: backslashed (List.replicate k ['.', '.'] ++ fs)),
      out := ['.', '.'] ++ backslashed (List.replicate k ['.', '.']),
      alloc := false, stale := [] } (2 + 3 * k) rfl (by simp [backslashed_append]) (by simp)
  rw [cleanChars_of_drop .windows orig '.' _ hpath]
  simp only [hdot, Bool.false_eq_true, if_false]
  simp only [List.cons_append, List.nil_append] at hsplit
  rw [hsplit, List.foldl_cons, h1, List.foldl_append]
  simp only [List.length_cons, List.length_nil] at h2
  rw [h2, h3, dot_if_nonempty _ (by simp), postClean_of_not_alloc _ _ rfl, hvol]
  simp only [FromSlash]
  have : List.take n orig ++
      (['.', '.'] ++ backslashed (List.replicate k ['.', '.']) ++ backslashed fs) = orig := by
    have := List.take_append_drop n orig
    rw [hdrop] at this
    simpa [dotDots] using this
  rw [this]
  exact map_fromSlash_id orig hslash

theorem dotDots_no_slash (k : Nat) : ∀ c ∈ dotDots k, c ≠ '/' := by
  intro c hc
  simp only [dotDots, List.mem_cons] at hc
  rcases hc with rfl | rfl | hc
  · decide
  · decide
  · induction k with
    | zero => simp [backslashed] at hc
    | succ k ih =>
      simp only [List.replicate_succ, backslashed, List.mem_cons, List.cons_append,
        List.nil_append] at hc
      rcases hc with rfl | rfl | rfl | hc
      · decide
      · decide
      · decide
      · exact ih hc

theorem volumeNameLen_up (k : Nat) (fs : List (List Char)) :
    volumeNameLen .windows (dotDots k ++ backslashed fs) = 0 := by
  simp [volumeNameLen, dotDots, IsPathSeparator]

theorem endsReal_dotDots (k : Nat) (a : List Char) : endsReal (a ++ dotDots k) := by
  have h0 : endsReal ['.', '.'] := ⟨'.', rfl, by decide, by decide⟩
  induction k generalizing a with
  | zero => simpa [dotDots, backslashed] using endsReal_append a _ h0
  | succ k ih =>
    have := ih (a ++ ['.', '.', '\\'])
    simpa [dotDots, backslashed, List.replicate_succ] using this

/-- `Clean` leaves a clean Windows path without a trailing backslash as it
is. -/
theorem cleanChars_clean (hd : PathHead) (fs : List (List Char)) (hv : hd.valid = true)
    (hfs : ∀ f ∈ fs, isRealElement f = true) (hne : fs ≠ []) (hadm : hd.admits fs = true) :
    cleanChars .windows (hd.chars ++ backslashed fs) = hd.chars ++ backslashed fs := by
  have hbs := backslashed_no_slash fs hfs
  cases hd with
  | rooted =>
    cases fs with
    | nil => exact absurd rfl hne
    | cons f fs =>
      have hf := hfs f (List.mem_cons_self _ _)
      have hq : f ≠ ['?', '?'] := by simpa [PathHead.admits] using hadm
      exact cleanChars_verbatim_rooted _ 0 (f :: fs) hfs hne
        (volumeNameLen_rooted f fs hf hq) rfl (by simpa [PathHead.chars] using hbs)
  | relative e =>
    have he : isRealElement e = true := hv
    refine cleanChars_verbatim_relative _ 0 e fs he hfs (volumeNameLen_relative e fs he) rfl ?_
    intro c hc
    simp only [PathHead.chars, List.mem_append] at hc
    rcases hc with hc | hc
    · exact real_no_slash e he c hc
    · exact hbs c hc
  | up k =>
    refine cleanChars_verbatim_up _ 0 k fs hfs (volumeNameLen_up k fs) rfl ?_
    intro c hc
    simp only [PathHead.chars, List.mem_append] at hc
    rcases hc with hc | hc
    · exact dotDots_no_slash k c hc
    · exact hbs c hc
  | driveUp d k =>
    have hd : d.isAlpha = true := hv
    refine cleanChars_verbatim_up _ 2 k fs hfs (volumeNameLen_drive d _ hd) rfl ?_
    intro c hc
    simp only [PathHead.chars, List.cons_append, List.mem_cons, List.mem_append] at hc
    rcases hc with rfl | rfl | hc | hc
    · exact (isAlpha_ascii _ hd).2
    · decide
    · exact dotDots_no_slash k c hc
    · exact hbs c hc
  | drive d =>
    have hd : d.isAlpha = true := hv
    refine cleanChars_verbatim_rooted _ 2 fs hfs hne (volumeNameLen_drive d _ hd) rfl ?_
    intro c hc
    simp only [PathHead.chars, List.cons_append, List.nil_append, List.mem_cons] at hc
    rcases hc with rfl | rfl | hc
    · exact (isAlpha_ascii _ hd).2
    · decide
    · exact hbs c hc
  | driveRelative d e =>
    have hv2 : d.isAlpha = true ∧ isRealElement e = true := by
      simpa [PathHead.valid] using hv
    refine cleanChars_verbatim_relative _ 2 e fs hv2.2 hfs (volumeNameLen_drive d _ hv2.1) rfl ?_
    intro c hc
    simp only [PathHead.chars, List.cons_append, List.mem_cons, List.mem_append] at hc
    rcases hc with rfl | rfl | hc | hc
    · exact (isAlpha_ascii _ hv2.1).2
    · decide
    · exact real_no_slash e hv2.2 c hc
    · exact hbs c hc
  | unc h s =>
    have hv2 : (isRealElement h = true ∧ isRealElement s = true) ∧ h ≠ ['?'] := by
      simpa [PathHead.valid] using hv
    have hvol := volumeNameLen_unc h s fs hv2.1.1 hv2.1.2 hv2.2 hne
    have horig : (PathHead.unc h s).chars ++ backslashed fs =
        '\\' :: '\\' :: (h ++ '\\' :: (s ++ backslashed fs)) := by
      simp [PathHead.chars]
    have hlen : (PathHead.unc h s).chars.length = 3 + h.length + s.length := by
      simp [PathHead.chars]
      omega
    refine cleanChars_verbatim_rooted _ (3 + h.length + s.length) fs hfs hne
      (by rw [horig]; exact hvol) (List.drop_left' hlen) ?_
    intro c hc
    simp only [PathHead.chars, List.cons_append, List.mem_cons, List.mem_append] at hc
    rcases hc with rfl | rfl | (hc | rfl | hc) | hc
    · decide
    · decide
    · exact real_no_slash h hv2.1.1 c hc
    · decide
    · exact real_no_slash s hv2.1.2 c hc
    · exact hbs c hc

theorem endsReal_stem (hd : PathHead) (es : List (List Char)) (hv : hd.valid = true)
    (hes : ∀ e ∈ es, isRealElement e = true) (hb : ¬ (hd.bare = true ∧ es = [])) :
    endsReal (hd.chars ++ backslashed es) := by
  by_cases h : es = []
  · subst h
    simp only [backslashed, List.append_nil]
    cases hd with
    | rooted => exact absurd ⟨rfl, rfl⟩ hb
    | drive d => exact absurd ⟨rfl, rfl⟩ hb
    | relative e => exact endsReal_of_real e hv
    | up k => simpa [PathHead.chars] using endsReal_dotDots k []
    | driveUp d k => exact endsReal_dotDots k [d, ':']
    | driveRelative d e =>
      have hv2 : d.isAlpha = true ∧ isRealElement e = true := by
        simpa [PathHead.valid] using hv
      exact endsReal_append [d, ':'] e (endsReal_of_real e hv2.2)
    | unc h s =>
      have hv2 : (isRealElement h = true ∧ isRealElement s = true) ∧ h ≠ ['?'] := by
        simpa [PathHead.valid] using hv
      have := endsReal_append ('\\' :: '\\' :: (h ++ ['\\'])) s (endsReal_of_real s hv2.1.2)
      simpa [PathHead.chars] using this
  · exact endsReal_backslashed es h hes _

/-- The builder loop of `Join` on a clean Windows path and real elements: the
elements, each after one backslash, follow the path without its trailing
backslash. -/
theorem joinWindowsLoop_clean (hd : PathHead) (es : List (List Char)) (trail : Bool)
    (m : List Char) (ms : List (List Char)) (z : Char) (hv : hd.valid = true)
    (hes : ∀ e ∈ es, isRealElement e = true)
    (hb : hd.bare = true → es = [] → trail = true)
    (hm : isRealElement m = true) (hms : ∀ x ∈ ms, isRealElement x = true)
    (hq : m ≠ ['?', '?']) :
    joinWindowsLoop ((hd.chars ++ backslashed es ++ (if trail then ['\\'] else [])) :: m :: ms)
      [] z = hd.chars ++ backslashed es ++ backslashed (m :: ms) := by
  obtain ⟨k, hk, k1, k2⟩ := endsReal_of_real m hm
  cases trail with
  | false =>
    have hb2 : ¬ (hd.bare = true ∧ es = []) := by
      rintro ⟨h1, h2⟩
      exact absurd (hb h1 h2) (by decide)
    obtain ⟨l, hl, l1, l2⟩ := endsReal_stem hd es hv hes hb2
    have hne : hd.chars ++ backslashed es ≠ [] := by
      intro h0
      rw [h0] at hl
      simp at hl
    rw [joinWindowsLoop]
    simp only [List.length_nil, if_true, Bool.false_eq_true, if_false, List.append_nil, hl,
      List.nil_append]
    exact joinWindowsLoop_real (m :: ms)
      (by
        intro x hx
        rcases List.mem_cons.1 hx with rfl | hx
        · exact hm
        · exact hms x hx) _ l hne l1 l2
  | true =>
    obtain ⟨c, t, rfl, hc, _⟩ := real_cons m hm
    have hbs : IsPathSeparator .windows '\\' = true := by decide
    have hlast : (hd.chars ++ backslashed es ++ ['\\']).getLast? = some '\\' := by simp
    have hlen : (hd.chars ++ backslashed es ++ ['\\']).length ≠ 0 := by simp
    have hdw : List.dropWhile (IsPathSeparator .windows) (c :: t) = c :: t := by
      simp [List.dropWhile, hc]
    have hmatch : (match c :: t with
        | '?' :: '?' :: [] => true
        | '?' :: '?' :: c3 :: _ => IsPathSeparator .windows c3
        | _ => false) = false := by
      have hsep := real_no_sep _ hm
      split
      · rename_i heq
        exact absurd heq hq
      · rename_i c3 r heq
        simp only [List.cons.injEq] at heq
        obtain ⟨rfl, rfl⟩ := heq
        exact hsep c3 (by simp)
      · rfl
    rw [joinWindowsLoop]
    simp only [List.length_nil, if_true, hlast, List.nil_append]
    rw [joinWindowsLoop]
    simp only [hlen, if_false, hbs, if_true, hdw, hmatch, Bool.and_false, Bool.false_eq_true,
      hk]
    rw [joinWindowsLoop_real ms hms _ k (by simp) k1 k2]
    simp [backslashed]

/-- Joining a clean Windows path with real elements gives the path, a backslash
unless it ends in one, and the elements separated by backslashes. -/
theorem Join_windows_clean (U m : String) (ms : List String) (hU : cleanWindowsPath U)
    (hm : isRealElement m.data = true) (hms : ∀ x ∈ ms, isRealElement x.data = true)
    (hq : m.data ≠ ['?', '?']) :
    Join .windows (U :: m :: ms) =
      withSeparator U ++ String.mk (m.data ++ backslashed (ms.map String.data)) := by
  obtain ⟨hd, es, trail, hv, hes, hadm, hb, hdata⟩ := hU
  have hms2 : ∀ x ∈ ms.map String.data, isRealElement x = true := by
    intro x hx
    obtain ⟨y, hy, rfl⟩ := List.mem_map.1 hx
    exact hms y hy
  have hloop := joinWindowsLoop_clean hd es trail m.data (ms.map String.data) (Char.ofNat 0)
    hv hes hb hm hms2 hq
  have hfs : ∀ f ∈ es ++ m.data :: ms.map String.data, isRealElement f = true := by
    intro f hf
    rcases List.mem_append.1 hf with h | h
    · exact hes f h
    · rcases List.mem_cons.1 h with rfl | h
      · exact hm
      · exact hms2 f h
  have hadm2 : hd.admits (es ++ m.data :: ms.map String.data) = true := by
    cases hd <;> cases es <;> simp_all [PathHead.admits]
  have hclean := cleanChars_clean hd (es ++ m.data :: ms.map String.data) hv hfs (by simp) hadm2
  have hj : joinChars .windows (U.data :: m.data :: ms.map String.data) =
      hd.chars ++ backslashed es ++ backslashed (m.data :: ms.map String.data) := by
    have hne : hd.chars ++ backslashed es ++ backslashed (m.data :: ms.map String.data) ≠ [] := by
      simp [backslashed]
    simp only [joinChars, hdata, hloop]
    rw [List.append_assoc, ← backslashed_append] at hne ⊢
    exact hclean
  have hw : (withSeparator U).data = hd.chars ++ backslashed es ++ ['\\'] := by
    cases trail with
    | true =>
      have hlast : U.data.getLast? = some '\\' := by
        rw [hdata]
        simp
      unfold withSeparator
      rw [if_pos hlast, hdata]
      simp
    | false =>
      have hb2 : ¬ (hd.bare = true ∧ es = []) := by
        rintro ⟨h1, h2⟩
        exact absurd (hb h1 h2) (by decide)
      obtain ⟨l, hl, l1, _⟩ := endsReal_stem hd es hv hes hb2
      have hdata2 : U.data = hd.chars ++ backslashed es := by
        rw [hdata]
        simp
      have hlast : U.data.getLast? ≠ some '\\' := by
        rw [hdata2, hl]
        intro h0
        have : l = '\\' := by simpa using h0
        subst this
        revert l1
        decide
      unfold withSeparator
      rw [if_neg hlast, String.data_append, hdata2]
  apply String.ext
  rw [String.data_append, hw]
  simp only [Join, List.map_cons, hj]
  simp [backslashed]

theorem withSeparator_data (s : String) :
    (∃ t, (withSeparator s).data = s.data ++ t) ∧
    (∃ r, (withSeparator s).data = r ++ ['\\']) := by
  unfold withSeparator
  split_ifs with h
  · exact ⟨⟨[], by simp⟩, List.getLast?_eq_some_iff.1 h⟩
  · exact ⟨⟨['\\'], by rw [String.data_append]⟩, ⟨s.data, by rw [String.data_append]⟩⟩

theorem liesUnder_of_eq (path base suffix : String)
    (h : path = withSeparator base ++ suffix) : liesUnder (path, none) base suffix := by
  obtain ⟨⟨t, ht⟩, ⟨r, hr⟩⟩ := withSeparator_data base
  refine ⟨by rw [h], ?_, ?_⟩
  · simp only [HasPrefix, ToLower, h, String.data_append, ht, List.map_append,
      List.append_assoc]
    exact List.isPrefixOf_iff_prefix.2 (List.prefix_append _ _)
  · simp only [HasSuffix, h, String.data_append, hr, List.append_assoc]
    exact List.isSuffixOf_iff_suffix.2 (List.suffix_append _ _)

theorem windowsBob_USERPROFILE : cleanWindowsPath (windowsBob.Getenv "USERPROFILE") :=
  ⟨.drive 'C', ["Users".data, "bob".data], false, by decide, by decide, by decide,
    by decide, by decide⟩

theorem windowsBob_APPDATA : cleanWindowsPath (windowsBob.Getenv "APPDATA") :=
  ⟨.drive 'C', ["Users".data, "bob".data, "AppData".data, "Roaming".data], false, by decide,
    by decide, by decide, by decide, by decide⟩

theorem windowsShare_USERPROFILE : cleanWindowsPath (windowsShare.Getenv "USERPROFILE") :=
  ⟨.unc "fileserver".data "home".data, ["bob".data], true, by decide, by decide, by decide,
    by decide, by decide⟩

theorem windowsShare_APPDATA : cleanWindowsPath (windowsShare.Getenv "APPDATA") :=
  ⟨.drive 'D', [], true, by decide, by decide, by decide, by decide, by decide⟩

/-! ## The claims -/

set_option maxRecDepth 20000

/-- C1. Unix/XDG override rule: when the override variable of one of the 14
kinds holds a non-empty string `X`, the getter returns exactly `X`, uncleaned,
and no failure, whatever the outcome of the home-directory lookup. -/
theorem C1_linux_override_verbatim (p : Platform) (X : String) (hX : X ≠ "") :
    (p.LookupEnv "XDG_CACHE_HOME" = some X → linuxDirs.CacheDir p = (X, none)) ∧
    (p.LookupEnv "XDG_CONFIG_HOME" = some X → linuxDirs.ConfigDir p = (X, none)) ∧
    (p.LookupEnv "XDG_DATA_HOME" = some X → linuxDirs.DataDir p = (X, none)) ∧
    (p.LookupEnv "XDG_BIN_HOME" = some X → linuxDirs.ExecutableDir p = (X, none)) ∧
    (p.LookupEnv "XDG_RUNTIME_DIR" = some X → linuxDirs.RuntimeDir p = (X, none)) ∧
    (p.LookupEnv "XDG_STATE_HOME" = some X → linuxDirs.StateDir p = (X, none)) ∧
    (p.LookupEnv "XDG_MUSIC_DIR" = some X → linuxDirs.AudioDir p = (X, none)) ∧
    (p.LookupEnv "XDG_DESKTOP_DIR" = some X → linuxDirs.DesktopDir p = (X, none)) ∧
    (p.LookupEnv "XDG_DOCUMENTS_DIR" = some X → linuxDirs.DocumentDir p = (X, none)) ∧
    (p.LookupEnv "XDG_DOWNLOAD_DIR" = some X → linuxDirs.DownloadDir p = (X, none)) ∧
    (p.LookupEnv "XDG_PICTURES_DIR" = some X → linuxDirs.PictureDir p = (X, none)) ∧
    (p.LookupEnv "XDG_PUBLICSHARE_DIR" = some X → linuxDirs.PublicDir p = (X, none)) ∧
    (p.LookupEnv "XDG_TEMPLATES_DIR" = some X → linuxDirs.TemplateDir p = (X, none)) ∧
    (p.LookupEnv "XDG_VIDEOS_DIR" = some X → linuxDirs.VideoDir p = (X, none)) := by
  refine ⟨?_, ?_, ?_, ?_, ?_, ?_, ?_, ?_, ?_, ?_, ?_, ?_, ?_, ?_⟩ <;> intro h <;>
    simp [linuxDirs.CacheDir, linuxDirs.ConfigDir, linuxDirs.DataDir, linuxDirs.ExecutableDir,
      linuxDirs.RuntimeDir, linuxDirs.StateDir, linuxDirs.AudioDir, linuxDirs.DesktopDir,
      linuxDirs.DocumentDir, linuxDirs.DownloadDir, linuxDirs.PictureDir, linuxDirs.PublicDir,
      linuxDirs.TemplateDir, linuxDirs.VideoDir, linuxDirs.getUserDir,
      Getenv_of_lookup p _ X h, hX]

/-- C1 at a concrete environment: every variable holds `/srv//over/../ride/`, the
home-directory lookup fails, and each getter returns that very string. -/
theorem C1_linux_override_verbatim_witness :
    linuxDirs.CacheDir overridden = ("/srv//over/../ride/", none) ∧
    linuxDirs.ConfigDir overridden = ("/srv//over/../ride/", none) ∧
    linuxDirs.DataDir overridden = ("/srv//over/../ride/", none) ∧
    linuxDirs.ExecutableDir overridden = ("/srv//over/../ride/", none) ∧
    linuxDirs.RuntimeDir overridden = ("/srv//over/../ride/", none) ∧
    linuxDirs.StateDir overridden = ("/srv//over/../ride/", none) ∧
    linuxDirs.AudioDir overridden = ("/srv//over/../ride/", none) ∧
    linuxDirs.DesktopDir overridden = ("/srv//over/../ride/", none) ∧
    linuxDirs.DocumentDir overridden = ("/srv//over/../ride/", none) ∧
    linuxDirs.DownloadDir overridden = ("/srv//over/../ride/", none) ∧
    linuxDirs.PictureDir overridden = ("/srv//over/../ride/", none) ∧
    linuxDirs.PublicDir overridden = ("/srv//over/../ride/", none) ∧
    linuxDirs.TemplateDir overridden = ("/srv//over/../ride/", none) ∧
    linuxDirs.VideoDir overridden = ("/srv//over/../ride/", none) :=
  ⟨(C1_linux_override_verbatim overridden "/srv//over/../ride/" (by decide)).1 (by decide),
   (C1_linux_override_verbatim overridden "/srv//over/../ride/" (by decide)).2.1 (by decide),
   (C1_linux_override_verbatim overridden "/srv//over/../ride/" (by decide)).2.2.1 (by decide),
   (C1_linux_override_verbatim overridden "/srv//over/../ride/" (by decide)).2.2.2.1 (by decide),
   (C1_linux_override_verbatim overridden "/srv//over/../ride/" (by decide)).2.2.2.2.1 (by decide),
   (C1_linux_override_verbatim overridden "/srv//over/../ride/" (by decide)).2.2.2.2.2.1 (by decide),
   (C1_linux_override_verbatim overridden "/srv//over/../ride/" (by decide)).2.2.2.2.2.2.1 (by decide),
   (C1_linux_override_verbatim overridden "/srv//over/../ride/" (by decide)).2.2.2.2.2.2.2.1 (by decide),
   (C1_linux_override_verbatim overridden "/srv//over/../ride/" (by decide)).2.2.2.2.2.2.2.2.1 (by decide),
   (C1_linux_override_verbatim overridden "/srv//over/../ride/" (by decide)).2.2.2.2.2.2.2.2.2.1 (by decide),
   (C1_linux_override_verbatim overridden "/srv//over/../ride/" (by decide)).2.2.2.2.2.2.2.2.2.2.1 (by decide),
   (C1_linux_override_verbatim overridden "/srv//over/../ride/" (by decide)).2.2.2.2.2.2.2.2.2.2.2.1 (by decide),
   (C1_linux_override_verbatim overridden "/srv//over/../ride/" (by decide)).2.2.2.2.2.2.2.2.2.2.2.2.1 (by decide),
   (C1_linux_override_verbatim overridden "/srv//over/../ride/" (by decide)).2.2.2.2.2.2.2.2.2.2.2.2.2 (by decide)⟩

/-- C2. Unix/XDG fallback rule: when the override variable of a kind is unset
or empty and the home-directory lookup succeeds with `h`, the getter returns no
failure and the path join of `h` with the documented suffix. -/
theorem C2_linux_fallback_join (p : Platform) (h : String) (hh : p.UserHomeDir = .ok h) :
    (p.unsetOrEmpty "XDG_CACHE_HOME" → linuxDirs.CacheDir p = (Join .linux [h, ".cache"], none)) ∧
    (p.unsetOrEmpty "XDG_CONFIG_HOME" → linuxDirs.ConfigDir p = (Join .linux [h, ".config"], none)) ∧
    (p.unsetOrEmpty "XDG_DATA_HOME" → linuxDirs.DataDir p = (Join .linux [h, ".local/share"], none)) ∧
    (p.unsetOrEmpty "XDG_BIN_HOME" → linuxDirs.ExecutableDir p = (Join .linux [h, ".local/bin"], none)) ∧
    (p.unsetOrEmpty "XDG_STATE_HOME" → linuxDirs.StateDir p = (Join .linux [h, ".local/state"], none)) ∧
    (p.unsetOrEmpty "XDG_MUSIC_DIR" → linuxDirs.AudioDir p = (Join .linux [h, "Music"], none)) ∧
    (p.unsetOrEmpty "XDG_DESKTOP_DIR" → linuxDirs.DesktopDir p = (Join .linux [h, "Desktop"], none)) ∧
    (p.unsetOrEmpty "XDG_DOCUMENTS_DIR" → linuxDirs.DocumentDir p = (Join .linux [h, "Documents"], none)) ∧
    (p.unsetOrEmpty "XDG_DOWNLOAD_DIR" → linuxDirs.DownloadDir p = (Join .linux [h, "Downloads"], none)) ∧
    (p.unsetOrEmpty "XDG_PICTURES_DIR" → linuxDirs.PictureDir p = (Join .linux [h, "Pictures"], none)) ∧
    (p.unsetOrEmpty "XDG_PUBLICSHARE_DIR" → linuxDirs.PublicDir p = (Join .linux [h, "Public"], none)) ∧
    (p.unsetOrEmpty "XDG_TEMPLATES_DIR" → linuxDirs.TemplateDir p = (Join .linux [h, "Templates"], none)) ∧
    (p.unsetOrEmpty "XDG_VIDEOS_DIR" → linuxDirs.VideoDir p = (Join .linux [h, "Videos"], none)) := by
  have hd := osUserHomeDir_ok p h hh
  have j2 : ∀ a b : String, a ≠ "" → Join .linux [h, a, b] = Join .linux [h, a ++ "/" ++ b] :=
    fun a b ha => Join_unix_two .linux (by decide) h a b ha
  refine ⟨?_, ?_, ?_, ?_, ?_, ?_, ?_, ?_, ?_, ?_, ?_, ?_, ?_⟩ <;> intro hv <;>
    rw [← Getenv_eq_empty_iff] at hv <;>
    simp [linuxDirs.CacheDir, linuxDirs.ConfigDir, linuxDirs.DataDir, linuxDirs.ExecutableDir,
      linuxDirs.StateDir, linuxDirs.AudioDir, linuxDirs.DesktopDir,
      linuxDirs.DocumentDir, linuxDirs.DownloadDir, linuxDirs.PictureDir, linuxDirs.PublicDir,
      linuxDirs.TemplateDir, linuxDirs.VideoDir, linuxDirs.getUserDir, linuxDirs.HomeDir,
      hv, hd]
  · exact j2 ".local" "share" (by decide)
  · exact j2 ".local" "bin" (by decide)
  · exact j2 ".local" "state" (by decide)

/-- C2 at the environment of the example: home `/home/alice`, `XDG_DATA_HOME`
empty and no other XDG variable set. -/
theorem C2_linux_fallback_join_witness :
    linuxDirs.CacheDir alice = ("/home/alice/.cache", none) ∧
    linuxDirs.ConfigDir alice = ("/home/alice/.config", none) ∧
    linuxDirs.DataDir alice = ("/home/alice/.local/share", none) ∧
    linuxDirs.ExecutableDir alice = ("/home/alice/.local/bin", none) ∧
    linuxDirs.StateDir alice = ("/home/alice/.local/state", none) ∧
    linuxDirs.AudioDir alice = ("/home/alice/Music", none) ∧
    linuxDirs.DesktopDir alice = ("/home/alice/Desktop", none) ∧
    linuxDirs.DocumentDir alice = ("/home/alice/Documents", none) ∧
    linuxDirs.DownloadDir alice = ("/home/alice/Downloads", none) ∧
    linuxDirs.PictureDir alice = ("/home/alice/Pictures", none) ∧
    linuxDirs.PublicDir alice = ("/home/alice/Public", none) ∧
    linuxDirs.TemplateDir alice = ("/home/alice/Templates", none) ∧
    linuxDirs.VideoDir alice = ("/home/alice/Videos", none) :=
  ⟨((C2_linux_fallback_join alice "/home/alice" rfl).1 (Or.inl (by decide))).trans (by decide),
   ((C2_linux_fallback_join alice "/home/alice" rfl).2.1 (Or.inl (by decide))).trans (by decide),
   ((C2_linux_fallback_join alice "/home/alice" rfl).2.2.1 (Or.inr (by decide))).trans (by decide),
   ((C2_linux_fallback_join alice "/home/alice" rfl).2.2.2.1 (Or.inl (by decide))).trans (by decide),
   ((C2_linux_fallback_join alice "/home/alice" rfl).2.2.2.2.1 (Or.inl (by decide))).trans (by decide),
   ((C2_linux_fallback_join alice "/home/alice" rfl).2.2.2.2.2.1 (Or.inl (by decide))).trans (by decide),
   ((C2_linux_fallback_join alice "/home/alice" rfl).2.2.2.2.2.2.1 (Or.inl (by decide))).trans (by decide),
   ((C2_linux_fallback_join alice "/home/alice" rfl).2.2.2.2.2.2.2.1 (Or.inl (by decide))).trans (by decide),
   ((C2_linux_fallback_join alice "/home/alice" rfl).2.2.2.2.2.2.2.2.1 (Or.inl (by decide))).trans (by decide),
   ((C2_linux_fallback_join alice "/home/alice" rfl).2.2.2.2.2.2.2.2.2.1 (Or.inl (by decide))).trans (by decide),
   ((C2_linux_fallback_join alice "/home/alice" rfl).2.2.2.2.2.2.2.2.2.2.1 (Or.inl (by decide))).trans (by decide),
   ((C2_linux_fallback_join alice "/home/alice" rfl).2.2.2.2.2.2.2.2.2.2.2.1 (Or.inl (by decide))).trans (by decide),
   ((C2_linux_fallback_join alice "/home/alice" rfl).2.2.2.2.2.2.2.2.2.2.2.2 (Or.inl (by decide))).trans (by decide)⟩

/-- C3. Failure characterisation.  Unix/XDG: a getter with a home fallback
(and `DataLocalDir`, `PreferenceDir`, `FontDir` through their delegates) fails
exactly when its governing variable is unset or empty and the home-directory
lookup fails, and `RuntimeDir` never fails.  Apple: every home-based getter
fails exactly when the home-directory lookup fails.  Windows: no getter other
than `HomeDir` fails.  A failing getter returns the empty path and the failure
of the home-directory lookup. -/
theorem C3_failure_characterisation (p : Platform) :
   (failsExactlyWhen p (linuxDirs.HomeDir p) True ∧
    failsExactlyWhen p (linuxDirs.CacheDir p) (p.unsetOrEmpty "XDG_CACHE_HOME") ∧
    failsExactlyWhen p (linuxDirs.ConfigDir p) (p.unsetOrEmpty "XDG_CONFIG_HOME") ∧
    failsExactlyWhen p (linuxDirs.DataDir p) (p.unsetOrEmpty "XDG_DATA_HOME") ∧
    failsExactlyWhen p (linuxDirs.DataLocalDir p) (p.unsetOrEmpty "XDG_DATA_HOME") ∧
    failsExactlyWhen p (linuxDirs.ExecutableDir p) (p.unsetOrEmpty "XDG_BIN_HOME") ∧
    failsExactlyWhen p (linuxDirs.PreferenceDir p) (p.unsetOrEmpty "XDG_CONFIG_HOME") ∧
    failsExactlyWhen p (linuxDirs.StateDir p) (p.unsetOrEmpty "XDG_STATE_HOME") ∧
    failsExactlyWhen p (linuxDirs.AudioDir p) (p.unsetOrEmpty "XDG_MUSIC_DIR") ∧
    failsExactlyWhen p (linuxDirs.DesktopDir p) (p.unsetOrEmpty "XDG_DESKTOP_DIR") ∧
    failsExactlyWhen p (linuxDirs.DocumentDir p) (p.unsetOrEmpty "XDG_DOCUMENTS_DIR") ∧
    failsExactlyWhen p (linuxDirs.DownloadDir p) (p.unsetOrEmpty "XDG_DOWNLOAD_DIR") ∧
    failsExactlyWhen p (linuxDirs.FontDir p) (p.unsetOrEmpty "XDG_DATA_HOME") ∧
    failsExactlyWhen p (linuxDirs.PictureDir p) (p.unsetOrEmpty "XDG_PICTURES_DIR") ∧
    failsExactlyWhen p (linuxDirs.PublicDir p) (p.unsetOrEmpty "XDG_PUBLICSHARE_DIR") ∧
    failsExactlyWhen p (linuxDirs.TemplateDir p) (p.unsetOrEmpty "XDG_TEMPLATES_DIR") ∧
    failsExactlyWhen p (linuxDirs.VideoDir p) (p.unsetOrEmpty "XDG_VIDEOS_DIR") ∧
    (linuxDirs.RuntimeDir p).2 = none) ∧
   (failsExactlyWhen p (darwinDirs.HomeDir p) True ∧
    failsExactlyWhen p (darwinDirs.CacheDir p) True ∧
    failsExactlyWhen p (darwinDirs.ConfigDir p) True ∧
    failsExactlyWhen p (darwinDirs.DataDir p) True ∧
    failsExactlyWhen p (darwinDirs.DataLocalDir p) True ∧
    failsExactlyWhen p (darwinDirs.PreferenceDir p) True ∧
    failsExactlyWhen p (darwinDirs.AudioDir p) True ∧
    failsExactlyWhen p (darwinDirs.DesktopDir p) True ∧
    failsExactlyWhen p (darwinDirs.DocumentDir p) True ∧
    failsExactlyWhen p (darwinDirs.DownloadDir p) True ∧
    failsExactlyWhen p (darwinDirs.FontDir p) True ∧
    failsExactlyWhen p (darwinDirs.PictureDir p) True ∧
    failsExactlyWhen p (darwinDirs.PublicDir p) True ∧
    failsExactlyWhen p (darwinDirs.VideoDir p) True) ∧
   (failsExactlyWhen p (windowsDirs.HomeDir p) True ∧
    (windowsDirs.CacheDir p).2 = none ∧
    (windowsDirs.ConfigDir p).2 = none ∧
    (windowsDirs.DataDir p).2 = none ∧
    (windowsDirs.DataLocalDir p).2 = none ∧
    (windowsDirs.ExecutableDir p).2 = none ∧
    (windowsDirs.PreferenceDir p).2 = none ∧
    (windowsDirs.RuntimeDir p).2 = none ∧
    (windowsDirs.StateDir p).2 = none ∧
    (windowsDirs.AudioDir p).2 = none ∧
    (windowsDirs.DesktopDir p).2 = none ∧
    (windowsDirs.DocumentDir p).2 = none ∧
    (windowsDirs.DownloadDir p).2 = none ∧
    (windowsDirs.FontDir p).2 = none ∧
    (windowsDirs.PictureDir p).2 = none ∧
    (windowsDirs.PublicDir p).2 = none ∧
    (windowsDirs.TemplateDir p).2 = none ∧
    (windowsDirs.VideoDir p).2 = none) :=
  ⟨⟨failsExactlyWhen_osUserHomeDir p,
    failsExactlyWhen_override p "XDG_CACHE_HOME" _,
    failsExactlyWhen_override p "XDG_CONFIG_HOME" _,
    failsExactlyWhen_override p "XDG_DATA_HOME" _,
    failsExactlyWhen_override p "XDG_DATA_HOME" _,
    failsExactlyWhen_override p "XDG_BIN_HOME" _,
    failsExactlyWhen_override p "XDG_CONFIG_HOME" _,
    failsExactlyWhen_override p "XDG_STATE_HOME" _,
    failsExactlyWhen_override p "XDG_MUSIC_DIR" _,
    failsExactlyWhen_override p "XDG_DESKTOP_DIR" _,
    failsExactlyWhen_override p "XDG_DOCUMENTS_DIR" _,
    failsExactlyWhen_override p "XDG_DOWNLOAD_DIR" _,
    failsExactlyWhen_linux_FontDir p,
    failsExactlyWhen_override p "XDG_PICTURES_DIR" _,
    failsExactlyWhen_override p "XDG_PUBLICSHARE_DIR" _,
    failsExactlyWhen_override p "XDG_TEMPLATES_DIR" _,
    failsExactlyWhen_override p "XDG_VIDEOS_DIR" _,
    rfl⟩,
   ⟨failsExactlyWhen_osUserHomeDir p,
    failsExactlyWhen_home p _,
    failsExactlyWhen_home p _,
    failsExactlyWhen_home p _,
    failsExactlyWhen_home p _,
    failsExactlyWhen_home p _,
    failsExactlyWhen_home p _,
    failsExactlyWhen_home p _,
    failsExactlyWhen_home p _,
    failsExactlyWhen_home p _,
    failsExactlyWhen_home p _,
    failsExactlyWhen_home p _,
    failsExactlyWhen_home p _,
    failsExactlyWhen_home p _⟩,
   ⟨failsExactlyWhen_osUserHomeDir p,
    rfl,
    rfl,
    rfl,
    rfl,
    rfl,
    rfl,
    rfl,
    rfl,
    rfl,
    rfl,
    rfl,
    rfl,
    rfl,
    rfl,
    rfl,
    rfl,
    rfl⟩⟩

/-- C3 at a concrete environment: every XDG variable but `XDG_CACHE_HOME` is
set and the home-directory lookup fails; `CacheDir` fails with the empty path
and the failure of the lookup. -/
theorem C3_failure_characterisation_witness :
    linuxDirs.CacheDir (overridden.Unsetenv "XDG_CACHE_HOME") =
      ("", some "$HOME is not defined") :=
  ((C3_failure_characterisation (overridden.Unsetenv "XDG_CACHE_HOME")).1.2.1).2
    (((C3_failure_characterisation (overridden.Unsetenv "XDG_CACHE_HOME")).1.2.1).1.mpr
      ⟨Or.inl (by decide), by decide⟩)

/-- C4. Apple fixed table: whatever the environment holds, when the
home-directory lookup succeeds with `h` the getters return no failure and the
join of `h` with `Library/Caches`, `Library/Application Support` (`ConfigDir`
and `DataDir`), `Library/Preferences`, `Library/Fonts`, `Music`, `Desktop`,
`Documents`, `Downloads`, `Pictures`, `Public` and `Movies`. -/
theorem C4_darwin_fixed_table (p : Platform) (h : String) (hh : p.UserHomeDir = .ok h) :
    darwinDirs.CacheDir p = (Join .darwin [h, "Library", "Caches"], none) ∧
    darwinDirs.ConfigDir p = (Join .darwin [h, "Library", "Application Support"], none) ∧
    darwinDirs.DataDir p = (Join .darwin [h, "Library", "Application Support"], none) ∧
    darwinDirs.PreferenceDir p = (Join .darwin [h, "Library", "Preferences"], none) ∧
    darwinDirs.FontDir p = (Join .darwin [h, "Library", "Fonts"], none) ∧
    darwinDirs.AudioDir p = (Join .darwin [h, "Music"], none) ∧
    darwinDirs.DesktopDir p = (Join .darwin [h, "Desktop"], none) ∧
    darwinDirs.DocumentDir p = (Join .darwin [h, "Documents"], none) ∧
    darwinDirs.DownloadDir p = (Join .darwin [h, "Downloads"], none) ∧
    darwinDirs.PictureDir p = (Join .darwin [h, "Pictures"], none) ∧
    darwinDirs.PublicDir p = (Join .darwin [h, "Public"], none) ∧
    darwinDirs.VideoDir p = (Join .darwin [h, "Movies"], none) := by
  have hd := osUserHomeDir_ok p h hh
  simp [darwinDirs.CacheDir, darwinDirs.ConfigDir, darwinDirs.DataDir, darwinDirs.PreferenceDir,
    darwinDirs.FontDir, darwinDirs.AudioDir, darwinDirs.DesktopDir, darwinDirs.DocumentDir,
    darwinDirs.DownloadDir, darwinDirs.PictureDir, darwinDirs.PublicDir, darwinDirs.VideoDir,
    darwinDirs.getUserHomeSubDir, darwinDirs.HomeDir, hd]

/-- C4 at the environment of the example: home `/Users/bob`, with the XDG
variables set, which the Apple getters do not read. -/
theorem C4_darwin_fixed_table_witness :
    darwinDirs.CacheDir bob = ("/Users/bob/Library/Caches", none) ∧
    darwinDirs.ConfigDir bob = ("/Users/bob/Library/Application Support", none) ∧
    darwinDirs.DataDir bob = ("/Users/bob/Library/Application Support", none) ∧
    darwinDirs.PreferenceDir bob = ("/Users/bob/Library/Preferences", none) ∧
    darwinDirs.FontDir bob = ("/Users/bob/Library/Fonts", none) ∧
    darwinDirs.AudioDir bob = ("/Users/bob/Music", none) ∧
    darwinDirs.DesktopDir bob = ("/Users/bob/Desktop", none) ∧
    darwinDirs.DocumentDir bob = ("/Users/bob/Documents", none) ∧
    darwinDirs.DownloadDir bob = ("/Users/bob/Downloads", none) ∧
    darwinDirs.PictureDir bob = ("/Users/bob/Pictures", none) ∧
    darwinDirs.PublicDir bob = ("/Users/bob/Public", none) ∧
    darwinDirs.VideoDir bob = ("/Users/bob/Movies", none) :=
  ⟨((C4_darwin_fixed_table bob "/Users/bob" rfl).1).trans (by decide),
   ((C4_darwin_fixed_table bob "/Users/bob" rfl).2.1).trans (by decide),
   ((C4_darwin_fixed_table bob "/Users/bob" rfl).2.2.1).trans (by decide),
   ((C4_darwin_fixed_table bob "/Users/bob" rfl).2.2.2.1).trans (by decide),
   ((C4_darwin_fixed_table bob "/Users/bob" rfl).2.2.2.2.1).trans (by decide),
   ((C4_darwin_fixed_table bob "/Users/bob" rfl).2.2.2.2.2.1).trans (by decide),
   ((C4_darwin_fixed_table bob "/Users/bob" rfl).2.2.2.2.2.2.1).trans (by decide),
   ((C4_darwin_fixed_table bob "/Users/bob" rfl).2.2.2.2.2.2.2.1).trans (by decide),
   ((C4_darwin_fixed_table bob "/Users/bob" rfl).2.2.2.2.2.2.2.2.1).trans (by decide),
   ((C4_darwin_fixed_table bob "/Users/bob" rfl).2.2.2.2.2.2.2.2.2.1).trans (by decide),
   ((C4_darwin_fixed_table bob "/Users/bob" rfl).2.2.2.2.2.2.2.2.2.2.1).trans (by decide),
   ((C4_darwin_fixed_table bob "/Users/bob" rfl).2.2.2.2.2.2.2.2.2.2.2).trans (by decide)⟩

/-- C5. Not-applicable sentinel: the Apple getters `ExecutableDir`, `RuntimeDir`,
`StateDir`, `TemplateDir` and the Windows getters `ExecutableDir`, `RuntimeDir`,
`StateDir`, `FontDir` return the empty path and no failure on every platform
state, a failing home-directory lookup included. -/
theorem C5_not_applicable_sentinel (p : Platform) :
    darwinDirs.ExecutableDir p = ("", none) ∧
    darwinDirs.RuntimeDir p = ("", none) ∧
    darwinDirs.StateDir p = ("", none) ∧
    darwinDirs.TemplateDir p = ("", none) ∧
    windowsDirs.ExecutableDir p = ("", none) ∧
    windowsDirs.RuntimeDir p = ("", none) ∧
    windowsDirs.StateDir p = ("", none) ∧
    windowsDirs.FontDir p = ("", none) :=
  ⟨rfl, rfl, rfl, rfl, rfl, rfl, rfl, rfl⟩

/-- C6. `DataLocalDir` equals `DataDir`, path and failure, in the Unix/XDG and
Apple variants on every platform state; when `XDG_DATA_HOME` holds a non-empty
`X` both Unix getters return `X`. -/
theorem C6_DataLocalDir_eq_DataDir (p : Platform) :
    linuxDirs.DataLocalDir p = linuxDirs.DataDir p ∧
    darwinDirs.DataLocalDir p = darwinDirs.DataDir p ∧
    (∀ X : String, X ≠ "" → p.LookupEnv "XDG_DATA_HOME" = some X →
      linuxDirs.DataLocalDir p = (X, none) ∧ linuxDirs.DataDir p = (X, none)) := by
  refine ⟨rfl, rfl, ?_⟩
  intro X hX h
  simp [linuxDirs.DataLocalDir, linuxDirs.DataDir, Getenv_of_lookup p _ X h, hX]

/-- C6 at a concrete environment: `XDG_DATA_HOME` holds an uncleaned path and
the home-directory lookup fails; both getters return that path. -/
theorem C6_DataLocalDir_eq_DataDir_witness :
    linuxDirs.DataLocalDir overridden = ("/srv//over/../ride/", none) ∧
    linuxDirs.DataDir overridden = ("/srv//over/../ride/", none) :=
  (C6_DataLocalDir_eq_DataDir overridden).2.2 "/srv//over/../ride/" (by decide) (by decide)

/-- C7. `PreferenceDir` equals `ConfigDir`, path and failure, in the Unix/XDG
and Windows variants on every platform state; with `XDG_CONFIG_HOME` set to
`/etc/custom-cfg` both Unix getters return `/etc/custom-cfg`. -/
theorem C7_PreferenceDir_eq_ConfigDir (p : Platform) :
    linuxDirs.PreferenceDir p = linuxDirs.ConfigDir p ∧
    windowsDirs.PreferenceDir p = windowsDirs.ConfigDir p ∧
    (p.LookupEnv "XDG_CONFIG_HOME" = some "/etc/custom-cfg" →
      linuxDirs.PreferenceDir p = ("/etc/custom-cfg", none) ∧
      linuxDirs.ConfigDir p = ("/etc/custom-cfg", none)) := by
  refine ⟨rfl, rfl, ?_⟩
  intro h
  simp [linuxDirs.PreferenceDir, linuxDirs.ConfigDir, Getenv_of_lookup p _ _ h]

/-- C7 at the environment of the example: `XDG_CONFIG_HOME = /etc/custom-cfg`. -/
theorem C7_PreferenceDir_eq_ConfigDir_witness :
    linuxDirs.PreferenceDir customCfg = ("/etc/custom-cfg", none) ∧
    linuxDirs.ConfigDir customCfg = ("/etc/custom-cfg", none) :=
  (C7_PreferenceDir_eq_ConfigDir customCfg).2.2 (by decide)

/-- C8. The Unix `FontDir` is derived from `DataDir`: when `DataDir` returns the
path `d` and no failure, `FontDir` returns the join of `d` with `fonts` and no
failure; when `XDG_DATA_HOME` holds a non-empty `X`, that is the join of `X`
with `fonts`; and when `DataDir` fails, `FontDir` returns the empty path and the
same failure. -/
theorem C8_linux_FontDir_from_DataDir (p : Platform) :
    (∀ d : String, linuxDirs.DataDir p = (d, none) →
      linuxDirs.FontDir p = (Join .linux [d, "fonts"], none)) ∧
    (∀ X : String, X ≠ "" → p.LookupEnv "XDG_DATA_HOME" = some X →
      linuxDirs.FontDir p = (Join .linux [X, "fonts"], none)) ∧
    (∀ e : GoError, (linuxDirs.DataDir p).2 = some e →
      linuxDirs.FontDir p = ("", some e)) := by
  refine ⟨?_, ?_, ?_⟩
  · intro d h
    simp [linuxDirs.FontDir, h]
  · intro X hX h
    simp [linuxDirs.FontDir, linuxDirs.DataDir, Getenv_of_lookup p _ X h, hX]
  · intro e h
    unfold linuxDirs.FontDir
    rcases hd : linuxDirs.DataDir p with ⟨d, err⟩
    rw [hd] at h
    cases err with
    | none => simp at h
    | some e2 =>
      have : e2 = e := by simpa using h
      simp [this]

/-- C8 at concrete environments: with `XDG_DATA_HOME` overriding, `FontDir` is
the join of its value with `fonts` although the home-directory lookup fails;
with `XDG_DATA_HOME` empty and home `/home/alice` it is
`/home/alice/.local/share/fonts`; with `XDG_DATA_HOME` removed and no home it
is the failure of the lookup. -/
theorem C8_linux_FontDir_from_DataDir_witness :
    linuxDirs.FontDir overridden = ("/srv/ride/fonts", none) ∧
    linuxDirs.FontDir alice = ("/home/alice/.local/share/fonts", none) ∧
    linuxDirs.FontDir (overridden.Unsetenv "XDG_DATA_HOME") =
      ("", some "$HOME is not defined") :=
  ⟨((C8_linux_FontDir_from_DataDir overridden).2.1 "/srv//over/../ride/" (by decide)
      (by decide)).trans (by decide),
   ((C8_linux_FontDir_from_DataDir alice).1 "/home/alice/.local/share" (by decide)).trans
      (by decide),
   (C8_linux_FontDir_from_DataDir (overridden.Unsetenv "XDG_DATA_HOME")).2.2
      "$HOME is not defined" (by decide)⟩

/-- C9. Windows passthrough: `CacheDir` and `DataLocalDir` return the value of
`LOCALAPPDATA`, and `ConfigDir`, `DataDir` and `PreferenceDir` the value of
`APPDATA`, with no failure; setting or unsetting `APPDATA` leaves the result of
`DataLocalDir` unchanged, and setting or unsetting `LOCALAPPDATA` leaves the
result of `DataDir` unchanged. -/
theorem C9_windows_passthrough (p : Platform) :
    windowsDirs.CacheDir p = (p.Getenv "LOCALAPPDATA", none) ∧
    windowsDirs.DataLocalDir p = (p.Getenv "LOCALAPPDATA", none) ∧
    windowsDirs.ConfigDir p = (p.Getenv "APPDATA", none) ∧
    windowsDirs.DataDir p = (p.Getenv "APPDATA", none) ∧
    windowsDirs.PreferenceDir p = (p.Getenv "APPDATA", none) ∧
    (∀ v : String, windowsDirs.DataLocalDir (p.Setenv "APPDATA" v) =
      windowsDirs.DataLocalDir p) ∧
    windowsDirs.DataLocalDir (p.Unsetenv "APPDATA") = windowsDirs.DataLocalDir p ∧
    (∀ v : String, windowsDirs.DataDir (p.Setenv "LOCALAPPDATA" v) =
      windowsDirs.DataDir p) ∧
    windowsDirs.DataDir (p.Unsetenv "LOCALAPPDATA") = windowsDirs.DataDir p := by
  refine ⟨rfl, rfl, rfl, rfl, rfl, ?_, ?_, ?_, ?_⟩ <;>
    simp [windowsDirs.DataLocalDir, windowsDirs.DataDir, Platform.Getenv, Platform.Setenv,
      Platform.Unsetenv]

/-- C10. The Windows `PublicDir` at `PUBLIC = C:\Users\Public\`: the getter
passes the variable through `filepath.Join`, which cleans it, and returns
`C:\Users\Public` without the final separator, not the value of the variable. -/
theorem C10_windows_PublicDir_cleans :
    publicTrailing.Getenv "PUBLIC" = "C:\\Users\\Public\\" ∧
    windowsDirs.PublicDir publicTrailing = ("C:\\Users\\Public", none) ∧
    windowsDirs.PublicDir publicTrailing ≠ (publicTrailing.Getenv "PUBLIC", none) := by
  refine ⟨by decide, by decide, by decide⟩

/-- C11, as stated, fails: with `USERPROFILE = C:/Users/bob` and a non-empty
`APPDATA`, `AudioDir` returns the cleaned `C:\Users\bob\Music`, which does not
start with the value of `USERPROFILE`, even compared without case. -/
theorem C11_forward_slashes_counterexample :
    forwardSlashes.Getenv "USERPROFILE" = "C:/Users/bob" ∧
    forwardSlashes.Getenv "USERPROFILE" ≠ "" ∧
    forwardSlashes.Getenv "APPDATA" ≠ "" ∧
    windowsDirs.AudioDir forwardSlashes = ("C:\\Users\\bob\\Music", none) ∧
    HasPrefix (ToLower (windowsDirs.AudioDir forwardSlashes).1)
      (ToLower (forwardSlashes.Getenv "USERPROFILE")) = false := by
  refine ⟨by decide, by decide, by decide, by decide, by decide⟩

/-- C11, amended.  When `USERPROFILE` and `APPDATA` hold clean Windows paths,
`AudioDir`, `DesktopDir`, `DocumentDir`, `DownloadDir`, `PictureDir` and
`VideoDir` return no failure and a path that starts with the value of
`USERPROFILE` and ends with `\Music`, `\Desktop`, `\Documents`, `\Downloads`,
`\Pictures` and `\Videos`, and `TemplateDir` returns no failure and a path
that starts with the value of `APPDATA` and ends with
`\Microsoft\Windows\Templates`: the value, a backslash unless the value ends
in one, and the suffix. -/
theorem C11_windows_user_folders (p : Platform)
    (hU : cleanWindowsPath (p.Getenv "USERPROFILE"))
    (hA : cleanWindowsPath (p.Getenv "APPDATA")) :
    liesUnder (windowsDirs.AudioDir p) (p.Getenv "USERPROFILE") "Music" ∧
    liesUnder (windowsDirs.DesktopDir p) (p.Getenv "USERPROFILE") "Desktop" ∧
    liesUnder (windowsDirs.DocumentDir p) (p.Getenv "USERPROFILE") "Documents" ∧
    liesUnder (windowsDirs.DownloadDir p) (p.Getenv "USERPROFILE") "Downloads" ∧
    liesUnder (windowsDirs.PictureDir p) (p.Getenv "USERPROFILE") "Pictures" ∧
    liesUnder (windowsDirs.VideoDir p) (p.Getenv "USERPROFILE") "Videos" ∧
    liesUnder (windowsDirs.TemplateDir p) (p.Getenv "APPDATA")
      "Microsoft\\Windows\\Templates" := by
  have hj : ∀ m : String, isRealElement m.data = true → m.data ≠ ['?', '?'] →
      Join .windows [p.Getenv "USERPROFILE", m] =
        withSeparator (p.Getenv "USERPROFILE") ++ m := by
    intro m hm hq
    rw [Join_windows_clean _ m [] hU hm (by simp) hq]
    simp [backslashed]
  have ht := Join_windows_clean _ "Microsoft" ["Windows", "Templates"] hA (by decide)
    (by decide) (by decide)
  refine ⟨?_, ?_, ?_, ?_, ?_, ?_, ?_⟩
  · exact liesUnder_of_eq _ _ _ (hj "Music" (by decide) (by decide))
  · exact liesUnder_of_eq _ _ _ (hj "Desktop" (by decide) (by decide))
  · exact liesUnder_of_eq _ _ _ (hj "Documents" (by decide) (by decide))
  · exact liesUnder_of_eq _ _ _ (hj "Downloads" (by decide) (by decide))
  · exact liesUnder_of_eq _ _ _ (hj "Pictures" (by decide) (by decide))
  · exact liesUnder_of_eq _ _ _ (hj "Videos" (by decide) (by decide))
  · exact liesUnder_of_eq _ _ _ ht

/-- C11 at two concrete environments: `USERPROFILE = C:\Users\bob` with
`APPDATA = C:\Users\bob\AppData\Roaming`, and the UNC value
`USERPROFILE = \\fileserver\home\bob\` with the drive root `APPDATA = D:\`. -/
theorem C11_windows_user_folders_witness :
   (windowsDirs.AudioDir windowsBob = ("C:\\Users\\bob\\Music", none) ∧
    windowsDirs.DesktopDir windowsBob = ("C:\\Users\\bob\\Desktop", none) ∧
    windowsDirs.DocumentDir windowsBob = ("C:\\Users\\bob\\Documents", none) ∧
    windowsDirs.DownloadDir windowsBob = ("C:\\Users\\bob\\Downloads", none) ∧
    windowsDirs.PictureDir windowsBob = ("C:\\Users\\bob\\Pictures", none) ∧
    windowsDirs.VideoDir windowsBob = ("C:\\Users\\bob\\Videos", none) ∧
    windowsDirs.TemplateDir windowsBob =
      ("C:\\Users\\bob\\AppData\\Roaming\\Microsoft\\Windows\\Templates", none)) ∧
    windowsDirs.AudioDir windowsShare = ("\\\\fileserver\\home\\bob\\Music", none) ∧
    HasPrefix (ToLower (windowsDirs.AudioDir windowsShare).1)
      (ToLower (windowsShare.Getenv "USERPROFILE")) = true ∧
    HasSuffix (windowsDirs.AudioDir windowsShare).1 "\\Music" = true ∧
    windowsDirs.TemplateDir windowsShare = ("D:\\Microsoft\\Windows\\Templates", none) :=
  ⟨⟨((C11_windows_user_folders windowsBob windowsBob_USERPROFILE windowsBob_APPDATA).1).1.trans
      (by decide),
   ((C11_windows_user_folders windowsBob windowsBob_USERPROFILE windowsBob_APPDATA).2.1).1.trans
      (by decide),
   ((C11_windows_user_folders windowsBob windowsBob_USERPROFILE windowsBob_APPDATA).2.2.1).1.trans
      (by decide),
   ((C11_windows_user_folders windowsBob windowsBob_USERPROFILE windowsBob_APPDATA).2.2.2.1).1.trans
      (by decide),
   ((C11_windows_user_folders windowsBob windowsBob_USERPROFILE windowsBob_APPDATA).2.2.2.2.1).1.trans
      (by decide),
   ((C11_windows_user_folders windowsBob windowsBob_USERPROFILE windowsBob_APPDATA).2.2.2.2.2.1).1.trans
      (by decide),
   ((C11_windows_user_folders windowsBob windowsBob_USERPROFILE windowsBob_APPDATA).2.2.2.2.2.2).1.trans
      (by decide)⟩,
   ((C11_windows_user_folders windowsShare windowsShare_USERPROFILE windowsShare_APPDATA).1).1.trans
      (by decide),
   ((C11_windows_user_folders windowsShare windowsShare_USERPROFILE windowsShare_APPDATA).1).2.1,
   ((C11_windows_user_folders windowsShare windowsShare_USERPROFILE windowsShare_APPDATA).1).2.2,
   ((C11_windows_user_folders windowsShare windowsShare_USERPROFILE
      windowsShare_APPDATA).2.2.2.2.2.2).1.trans (by decide)⟩

/-- C12, as stated, fails: with home `/home/alice` and `XDG_CACHE_HOME` set to
the relative path `cache/dir`, `CacheDir` returns `cache/dir`, which is neither
empty nor absolute. -/
theorem C12_relative_override_counterexample :
    relativeCache.UserHomeDir = .ok "/home/alice" ∧
    IsAbs .linux "/home/alice" = true ∧
    linuxDirs.CacheDir relativeCache = ("cache/dir", none) ∧
    (linuxDirs.CacheDir relativeCache).1 ≠ "" ∧
    IsAbs .linux (linuxDirs.CacheDir relativeCache).1 = false := by
  refine ⟨rfl, by decide, by decide, by decide, by decide⟩

/-- C12, amended.  When the home-directory lookup succeeds with an absolute
path, every Unix getter returns no failure; every getter but `RuntimeDir`
returns a non-empty path, which is absolute when the governing variable of the
getter is unset, empty or holds an absolute path; and `RuntimeDir` returns the
value of `XDG_RUNTIME_DIR`, empty exactly when the variable is unset or
empty. -/
theorem C12_linux_absolute_paths (p : Platform) (h : String)
    (hh : p.UserHomeDir = .ok h) (habs : IsAbs .linux h = true) :
    linuxDirs.HomeDir p = (h, none) ∧
    absoluteWhenGoverned p (linuxDirs.CacheDir p) "XDG_CACHE_HOME" ∧
    absoluteWhenGoverned p (linuxDirs.ConfigDir p) "XDG_CONFIG_HOME" ∧
    absoluteWhenGoverned p (linuxDirs.DataDir p) "XDG_DATA_HOME" ∧
    absoluteWhenGoverned p (linuxDirs.DataLocalDir p) "XDG_DATA_HOME" ∧
    absoluteWhenGoverned p (linuxDirs.ExecutableDir p) "XDG_BIN_HOME" ∧
    absoluteWhenGoverned p (linuxDirs.PreferenceDir p) "XDG_CONFIG_HOME" ∧
    absoluteWhenGoverned p (linuxDirs.StateDir p) "XDG_STATE_HOME" ∧
    absoluteWhenGoverned p (linuxDirs.AudioDir p) "XDG_MUSIC_DIR" ∧
    absoluteWhenGoverned p (linuxDirs.DesktopDir p) "XDG_DESKTOP_DIR" ∧
    absoluteWhenGoverned p (linuxDirs.DocumentDir p) "XDG_DOCUMENTS_DIR" ∧
    absoluteWhenGoverned p (linuxDirs.DownloadDir p) "XDG_DOWNLOAD_DIR" ∧
    absoluteWhenGoverned p (linuxDirs.FontDir p) "XDG_DATA_HOME" ∧
    absoluteWhenGoverned p (linuxDirs.PictureDir p) "XDG_PICTURES_DIR" ∧
    absoluteWhenGoverned p (linuxDirs.PublicDir p) "XDG_PUBLICSHARE_DIR" ∧
    absoluteWhenGoverned p (linuxDirs.TemplateDir p) "XDG_TEMPLATES_DIR" ∧
    absoluteWhenGoverned p (linuxDirs.VideoDir p) "XDG_VIDEOS_DIR" ∧
    (linuxDirs.RuntimeDir p).2 = none ∧
    ((linuxDirs.RuntimeDir p).1 = "" ↔ p.unsetOrEmpty "XDG_RUNTIME_DIR") ∧
    (linuxDirs.RuntimeDir p).1 = p.Getenv "XDG_RUNTIME_DIR" :=
  ⟨osUserHomeDir_ok p h hh,
     absoluteWhenGoverned_override p h hh habs "XDG_CACHE_HOME" [".cache"],
     absoluteWhenGoverned_override p h hh habs "XDG_CONFIG_HOME" [".config"],
     absoluteWhenGoverned_override p h hh habs "XDG_DATA_HOME" [".local", "share"],
     absoluteWhenGoverned_override p h hh habs "XDG_DATA_HOME" [".local", "share"],
     absoluteWhenGoverned_override p h hh habs "XDG_BIN_HOME" [".local", "bin"],
     absoluteWhenGoverned_override p h hh habs "XDG_CONFIG_HOME" [".config"],
     absoluteWhenGoverned_override p h hh habs "XDG_STATE_HOME" [".local", "state"],
     absoluteWhenGoverned_override p h hh habs "XDG_MUSIC_DIR" ["Music"],
     absoluteWhenGoverned_override p h hh habs "XDG_DESKTOP_DIR" ["Desktop"],
     absoluteWhenGoverned_override p h hh habs "XDG_DOCUMENTS_DIR" ["Documents"],
     absoluteWhenGoverned_override p h hh habs "XDG_DOWNLOAD_DIR" ["Downloads"],
     absoluteWhenGoverned_linux_FontDir p h hh habs,
     absoluteWhenGoverned_override p h hh habs "XDG_PICTURES_DIR" ["Pictures"],
     absoluteWhenGoverned_override p h hh habs "XDG_PUBLICSHARE_DIR" ["Public"],
     absoluteWhenGoverned_override p h hh habs "XDG_TEMPLATES_DIR" ["Templates"],
     absoluteWhenGoverned_override p h hh habs "XDG_VIDEOS_DIR" ["Videos"],
     rfl, Getenv_eq_empty_iff p "XDG_RUNTIME_DIR", rfl⟩

/-- C12 at a concrete environment: home `/home/alice`, `XDG_DATA_HOME` empty
and no other XDG variable set; `CacheDir` and `FontDir` return absolute
paths. -/
theorem C12_linux_absolute_paths_witness :
    IsAbs .linux (linuxDirs.CacheDir alice).1 = true ∧
    IsAbs .linux (linuxDirs.FontDir alice).1 = true ∧
    (linuxDirs.RuntimeDir alice).1 = "" :=
  ⟨(C12_linux_absolute_paths alice "/home/alice" rfl (by decide)).2.1.2.2
      (Or.inl (Or.inl (by decide))),
   (C12_linux_absolute_paths alice "/home/alice" rfl (by decide)).2.2.2.2.2.2.2.2.2.2.2.2.1.2.2
      (Or.inl (Or.inr (by decide))),
   (C12_linux_absolute_paths alice "/home/alice" rfl (by decide)).2.2.2.2.2.2.2.2.2.2.2.2.2.2.2.2.2.2.1.2
      (Or.inl (by decide))⟩

/-- C13, as stated, fails: with `USERPROFILE` unset, `AudioDir` returns the
relative path `Music`, not the empty string. -/
theorem C13_unset_USERPROFILE_counterexample :
    bareWindows.LookupEnv "USERPROFILE" = none ∧
    windowsDirs.AudioDir bareWindows = ("Music", none) ∧
    windowsDirs.AudioDir bareWindows ≠ ("", none) := by
  refine ⟨by decide, by decide, by decide⟩

/-- C13, amended.  When the variable a Windows getter reads is unset the getter
returns no failure; `CacheDir` and `DataLocalDir` (`LOCALAPPDATA`), `ConfigDir`,
`DataDir` and `PreferenceDir` (`APPDATA`) and `PublicDir` (`PUBLIC`) return the
empty string, `TemplateDir` (`APPDATA`) returns `Microsoft\Windows\Templates`,
and `AudioDir`, `DesktopDir`, `DocumentDir`, `DownloadDir`, `PictureDir` and
`VideoDir` (`USERPROFILE`) return `Music`, `Desktop`, `Documents`, `Downloads`,
`Pictures` and `Videos`. -/
theorem C13_windows_absent_variable (p : Platform) :
    (p.LookupEnv "LOCALAPPDATA" = none →
      windowsDirs.CacheDir p = ("", none) ∧
      windowsDirs.DataLocalDir p = ("", none)) ∧
    (p.LookupEnv "APPDATA" = none →
      windowsDirs.ConfigDir p = ("", none) ∧
      windowsDirs.DataDir p = ("", none) ∧
      windowsDirs.PreferenceDir p = ("", none) ∧
      windowsDirs.TemplateDir p = ("Microsoft\\Windows\\Templates", none)) ∧
    (p.LookupEnv "USERPROFILE" = none →
      windowsDirs.AudioDir p = ("Music", none) ∧
      windowsDirs.DesktopDir p = ("Desktop", none) ∧
      windowsDirs.DocumentDir p = ("Documents", none) ∧
      windowsDirs.DownloadDir p = ("Downloads", none) ∧
      windowsDirs.PictureDir p = ("Pictures", none) ∧
      windowsDirs.VideoDir p = ("Videos", none)) ∧
    (p.LookupEnv "PUBLIC" = none →
      windowsDirs.PublicDir p = ("", none)) := by
  refine ⟨?_, ?_, ?_, ?_⟩ <;> intro h <;> have hg := Getenv_of_unset p _ h
  · simp [windowsDirs.CacheDir, windowsDirs.DataLocalDir, hg]
  · simp only [windowsDirs.ConfigDir, windowsDirs.DataDir, windowsDirs.PreferenceDir,
      windowsDirs.TemplateDir, hg, true_and]
    decide
  · refine ⟨?_, ?_, ?_, ?_, ?_, ?_⟩ <;>
      simp only [windowsDirs.AudioDir, windowsDirs.DesktopDir, windowsDirs.DocumentDir,
        windowsDirs.DownloadDir, windowsDirs.PictureDir, windowsDirs.VideoDir, hg] <;> decide
  · simp only [windowsDirs.PublicDir, hg]
    decide

/-- C13 at the environment with no variable set. -/
theorem C13_windows_absent_variable_witness :
    windowsDirs.CacheDir bareWindows = ("", none) ∧
    windowsDirs.TemplateDir bareWindows = ("Microsoft\\Windows\\Templates", none) ∧
    windowsDirs.VideoDir bareWindows = ("Videos", none) ∧
    windowsDirs.PublicDir bareWindows = ("", none) :=
  ⟨((C13_windows_absent_variable bareWindows).1 (by decide)).1,
   ((C13_windows_absent_variable bareWindows).2.1 (by decide)).2.2.2,
   ((C13_windows_absent_variable bareWindows).2.2.1 (by decide)).2.2.2.2.2,
   (C13_windows_absent_variable bareWindows).2.2.2 (by decide)⟩

/-- C14. A Unix getter reads only its governing variable: on two platform
states with the same outcome of the home-directory lookup that agree on the
governing variable of a getter, the getter returns the same path and the same
failure, whatever the other variables hold. -/
theorem C14_linux_reads_own_variable (p q : Platform)
    (hh : p.UserHomeDir = q.UserHomeDir) :
    linuxDirs.HomeDir p = linuxDirs.HomeDir q ∧
    (p.LookupEnv "XDG_CACHE_HOME" = q.LookupEnv "XDG_CACHE_HOME" → linuxDirs.CacheDir p = linuxDirs.CacheDir q) ∧
    (p.LookupEnv "XDG_CONFIG_HOME" = q.LookupEnv "XDG_CONFIG_HOME" → linuxDirs.ConfigDir p = linuxDirs.ConfigDir q) ∧
    (p.LookupEnv "XDG_DATA_HOME" = q.LookupEnv "XDG_DATA_HOME" → linuxDirs.DataDir p = linuxDirs.DataDir q) ∧
    (p.LookupEnv "XDG_DATA_HOME" = q.LookupEnv "XDG_DATA_HOME" → linuxDirs.DataLocalDir p = linuxDirs.DataLocalDir q) ∧
    (p.LookupEnv "XDG_BIN_HOME" = q.LookupEnv "XDG_BIN_HOME" → linuxDirs.ExecutableDir p = linuxDirs.ExecutableDir q) ∧
    (p.LookupEnv "XDG_CONFIG_HOME" = q.LookupEnv "XDG_CONFIG_HOME" → linuxDirs.PreferenceDir p = linuxDirs.PreferenceDir q) ∧
    (p.LookupEnv "XDG_RUNTIME_DIR" = q.LookupEnv "XDG_RUNTIME_DIR" → linuxDirs.RuntimeDir p = linuxDirs.RuntimeDir q) ∧
    (p.LookupEnv "XDG_STATE_HOME" = q.LookupEnv "XDG_STATE_HOME" → linuxDirs.StateDir p = linuxDirs.StateDir q) ∧
    (p.LookupEnv "XDG_MUSIC_DIR" = q.LookupEnv "XDG_MUSIC_DIR" → linuxDirs.AudioDir p = linuxDirs.AudioDir q) ∧
    (p.LookupEnv "XDG_DESKTOP_DIR" = q.LookupEnv "XDG_DESKTOP_DIR" → linuxDirs.DesktopDir p = linuxDirs.DesktopDir q) ∧
    (p.LookupEnv "XDG_DOCUMENTS_DIR" = q.LookupEnv "XDG_DOCUMENTS_DIR" → linuxDirs.DocumentDir p = linuxDirs.DocumentDir q) ∧
    (p.LookupEnv "XDG_DOWNLOAD_DIR" = q.LookupEnv "XDG_DOWNLOAD_DIR" → linuxDirs.DownloadDir p = linuxDirs.DownloadDir q) ∧
    (p.LookupEnv "XDG_DATA_HOME" = q.LookupEnv "XDG_DATA_HOME" → linuxDirs.FontDir p = linuxDirs.FontDir q) ∧
    (p.LookupEnv "XDG_PICTURES_DIR" = q.LookupEnv "XDG_PICTURES_DIR" → linuxDirs.PictureDir p = linuxDirs.PictureDir q) ∧
    (p.LookupEnv "XDG_PUBLICSHARE_DIR" = q.LookupEnv "XDG_PUBLICSHARE_DIR" → linuxDirs.PublicDir p = linuxDirs.PublicDir q) ∧
    (p.LookupEnv "XDG_TEMPLATES_DIR" = q.LookupEnv "XDG_TEMPLATES_DIR" → linuxDirs.TemplateDir p = linuxDirs.TemplateDir q) ∧
    (p.LookupEnv "XDG_VIDEOS_DIR" = q.LookupEnv "XDG_VIDEOS_DIR" → linuxDirs.VideoDir p = linuxDirs.VideoDir q) := by
  refine ⟨?_, ?_, ?_, ?_, ?_, ?_, ?_, ?_, ?_, ?_, ?_, ?_, ?_, ?_, ?_, ?_, ?_, ?_⟩
  · simp [linuxDirs.HomeDir, Platform.osUserHomeDir, hh]
  all_goals
    intro hv
    have hg := Getenv_congr p q _ hv
    simp [linuxDirs.CacheDir, linuxDirs.ConfigDir, linuxDirs.DataDir, linuxDirs.DataLocalDir,
      linuxDirs.ExecutableDir, linuxDirs.PreferenceDir, linuxDirs.RuntimeDir,
      linuxDirs.StateDir, linuxDirs.AudioDir, linuxDirs.DesktopDir, linuxDirs.DocumentDir,
      linuxDirs.DownloadDir, linuxDirs.FontDir, linuxDirs.PictureDir, linuxDirs.PublicDir,
      linuxDirs.TemplateDir, linuxDirs.VideoDir, linuxDirs.getUserDir, linuxDirs.HomeDir,
      Platform.osUserHomeDir, hg, hh]

/-- C14 at two concrete environments with home `/home/alice` that differ on
`XDG_CACHE_HOME`, `XDG_RUNTIME_DIR`, `HOME` and `LANG` and agree on
`XDG_CONFIG_HOME` (unset) and `XDG_DATA_HOME` (empty). -/
theorem C14_linux_reads_own_variable_witness :
    alice.LookupEnv "XDG_CACHE_HOME" ≠ aliceBusy.LookupEnv "XDG_CACHE_HOME" ∧
    linuxDirs.ConfigDir alice = linuxDirs.ConfigDir aliceBusy ∧
    linuxDirs.FontDir alice = linuxDirs.FontDir aliceBusy :=
  ⟨by decide,
   (C14_linux_reads_own_variable alice aliceBusy rfl).2.2.1 (by decide),
   (C14_linux_reads_own_variable alice aliceBusy rfl).2.2.2.2.2.2.2.2.2.2.2.2.2.1 (by decide)⟩

end Dirs
